import Mathlib

/-!
# Verification of the go-proxy selection and resilience engine

Shallow embedding of the load-balancer core of the `juanbautista0/go-proxy`
repository, together with proofs and refutations of the frozen claims about
its specification.

Conventions of the embedding:
* Go `time.Time` and `time.Duration` values are modelled as `Int`
  nanoseconds (`time.Duration` is an `int64` nanosecond count in Go, and
  `t.Sub(u)` / `t.After(u)` are integer subtraction / strict comparison).
* Go `float64` arithmetic is modelled over `ℚ`; every concrete value used
  in a counterexample below is exactly representable in binary64, so the
  refutations transfer to the floating-point program.
* Go `int64` counters are modelled as `Int` (they can go negative, which
  matters for the connection-count claims).
* Go maps iterated in unspecified order are modelled as lists; no theorem
  below depends on the order except through explicit first-match scans
  which mirror the Go loops.
-/

set_option maxRecDepth 100000

namespace GoProxy

/-- Nanoseconds per second (Go `time.Second`). -/
def nsPerSec : Int := 1000000000

/-- Nanoseconds per millisecond (Go `time.Millisecond`). -/
def nsPerMs : Int := 1000000

/-- Go's `math.Max` over the rational model (executable, unlike the
lattice `max` of `ℚ`). -/
def qmax (x y : ℚ) : ℚ := if x ≤ y then y else x

/-- Go's `math.Min` over the rational model. -/
def qmin (x y : ℚ) : ℚ := if x ≤ y then x else y

theorem qmax_le_left (x y : ℚ) : x ≤ qmax x y := by
  unfold qmax
  split
  · assumption
  · exact le_refl x

/-! ## Data model (from `internal/domain/proxy.go` and
`internal/infrastructure/server_lifecycle.go`) -/

/-- `domain.Server` (the fields the core reads). -/
structure Server where
  url : String
  weight : Int
  active : Bool
  maxConnections : Int
  healthy : Bool
deriving Repr, DecidableEq

/-- `infrastructure.HealthState`. -/
inductive HealthState where
  | healthy
  | degraded
  | unhealthy
  | recovering
deriving Repr, DecidableEq

/-- `infrastructure.CircuitState`. -/
inductive CircuitState where
  | closed
  | open
  | halfOpen
deriving Repr, DecidableEq

/-- `infrastructure.CircuitBreaker`. -/
structure CircuitBreaker where
  state : CircuitState
  failureCount : Int
  successCount : Int
  lastFailureTime : Int
  nextRetryTime : Int
  failureThreshold : Int
  recoveryTimeout : Int
  halfOpenRequests : Int
deriving Repr, DecidableEq

/-- `infrastructure.RingBuffer` (durations stored as `Int` nanoseconds). -/
structure RingBuffer where
  buffer : List Int
  size : Nat
  index : Nat
  full : Bool
deriving Repr, DecidableEq

/-- `RingBuffer.Add`: write at the cursor, advance modulo `size`, and mark
the buffer full when the cursor wraps to zero. -/
def RingBuffer.add (rb : RingBuffer) (v : Int) : RingBuffer :=
  let buf := rb.buffer.set rb.index v
  let idx := (rb.index + 1) % rb.size
  { buffer := buf, size := rb.size, index := idx,
    full := rb.full || decide (idx = 0) }

/-- `RingBuffer.GetAll`: the written prefix when not yet full, otherwise the
oldest-first rotation of the whole buffer. -/
def RingBuffer.getAll (rb : RingBuffer) : List Int :=
  if rb.full then rb.buffer.drop rb.index ++ rb.buffer.take rb.index
  else rb.buffer.take rb.index

/-- `NewRingBuffer(size)`. -/
def RingBuffer.new (size : Nat) : RingBuffer :=
  { buffer := List.replicate size 0, size := size, index := 0, full := false }

/-- `infrastructure.ServerMetrics`. -/
structure ServerMetrics where
  requestCount : Int
  successCount : Int
  failureCount : Int
  responseTimes : RingBuffer
  totalLatency : Int
  p95ResponseTime : Int
  p99ResponseTime : Int
  errorRate : ℚ
  lastUpdate : Int
deriving Repr, DecidableEq

/-- `infrastructure.ConnectionPool`. -/
structure ConnectionPool where
  maxConnections : Int
  activeConns : Int
  waitingConns : Int
deriving Repr, DecidableEq

/-- `infrastructure.ServerState`. -/
structure ServerState where
  server : Server
  metrics : ServerMetrics
  healthState : HealthState
  circuitBreaker : CircuitBreaker
  connectionPool : ConnectionPool
  lastHealthCheck : Int
  consecutiveFails : Int
  weight : ℚ
  effectiveWeight : ℚ
  currentWeight : ℚ
deriving Repr, DecidableEq

/-! ## Circuit breaker dynamics

The breaker is mutated in exactly two places in the source: the
success/failure branches of `EnterpriseBalancer.UpdateStats`
(server_lifecycle.go:551-587) and the lazy `Open → HalfOpen` probe in
`getAvailableServers` (server_lifecycle.go:418-425).  Both are captured
verbatim below and shared with the full `updateStats` / `availStep`
embeddings further down. -/

/-- Breaker part of the success branch of `UpdateStats`: bump the success
count; while half-open, count probe successes and close after the fifth,
zeroing the failure count.  (The two sequential mutations of the source are
flattened into one conditional record update.) -/
def cbOnSuccess (cb : CircuitBreaker) : CircuitBreaker :=
  if cb.state = CircuitState.halfOpen then
    if 5 ≤ cb.halfOpenRequests + 1 then
      { cb with successCount := cb.successCount + 1, halfOpenRequests := cb.halfOpenRequests + 1, state := CircuitState.closed, failureCount := 0 }
    else
      { cb with successCount := cb.successCount + 1, halfOpenRequests := cb.halfOpenRequests + 1 }
  else { cb with successCount := cb.successCount + 1 }

/-- Breaker part of the failure branch of `UpdateStats`: bump the failure
count, stamp the failure time, and trip to `Open` (scheduling the next
retry) once the count reaches the threshold. -/
def cbOnFailure (now : Int) (cb : CircuitBreaker) : CircuitBreaker :=
  if cb.failureThreshold ≤ cb.failureCount + 1 then
    { cb with failureCount := cb.failureCount + 1, lastFailureTime := now, state := CircuitState.open, nextRetryTime := now + cb.recoveryTimeout }
  else { cb with failureCount := cb.failureCount + 1, lastFailureTime := now }

/-- Breaker part of `getAvailableServers`: an `Open` breaker whose
next-retry time has passed becomes `HalfOpen` with a fresh probe counter. -/
def cbOnAvail (now : Int) (cb : CircuitBreaker) : CircuitBreaker :=
  if cb.state = CircuitState.open then
    if cb.nextRetryTime < now then
      { cb with state := CircuitState.halfOpen, halfOpenRequests := 0 }
    else cb
  else cb

/-- The events that touch a server's breaker. -/
inductive CBEvent where
  | outcome (now : Int) (success : Bool)
  | avail (now : Int)
deriving Repr, DecidableEq

/-- One breaker step, dispatching to the three source-code sites. -/
def cbStep (cb : CircuitBreaker) (e : CBEvent) : CircuitBreaker :=
  match e with
  | CBEvent.outcome now success =>
      if success then cbOnSuccess cb else cbOnFailure now cb
  | CBEvent.avail now => cbOnAvail now cb

/-- The breaker a fresh `ServerState` gets in `UpdateServers`
(server_lifecycle.go:380-384): `Closed`, threshold 10, recovery 30 s. -/
def initCB : CircuitBreaker :=
  { state := CircuitState.closed, failureCount := 0, successCount := 0,
    lastFailureTime := 0, nextRetryTime := 0, failureThreshold := 10,
    recoveryTimeout := 30 * nsPerSec, halfOpenRequests := 0 }

/-- A breaker value is reachable when some event sequence produces it from
the initial breaker. -/
def CBReachable (cb : CircuitBreaker) : Prop :=
  ∃ evs : List CBEvent, cb = evs.foldl cbStep initCB

/-- The inductive invariant of the breaker: the configuration fields are
the defaults, and a breaker that is `Open` or `HalfOpen` carries at least
`failureThreshold` recorded failures. -/
def CBInv (cb : CircuitBreaker) : Prop :=
  cb.failureThreshold = 10 ∧ cb.recoveryTimeout = 30 * nsPerSec ∧
    ((cb.state = CircuitState.open ∨ cb.state = CircuitState.halfOpen) →
      10 ≤ cb.failureCount)

theorem cbInv_init : CBInv initCB := by
  refine ⟨rfl, rfl, ?_⟩
  intro h
  rcases h with h | h <;> simp [initCB] at h

theorem cbInv_step (cb : CircuitBreaker) (e : CBEvent) (h : CBInv cb) :
    CBInv (cbStep cb e) := by
  obtain ⟨hth, hrt, hcnt⟩ := h
  cases e with
  | outcome now success =>
    cases success with
    | true =>
      show CBInv (cbOnSuccess cb)
      unfold cbOnSuccess
      by_cases hs : cb.state = CircuitState.halfOpen
      · by_cases h5 : (5 : Int) ≤ cb.halfOpenRequests + 1
        · simp only [hs, if_pos rfl, if_pos h5]
          exact ⟨hth, hrt, by intro h; rcases h with h | h <;> simp_all⟩
        · simp only [hs, if_pos rfl, if_neg h5]
          exact ⟨hth, hrt, by intro _; exact hcnt (Or.inr hs)⟩
      · simp only [if_neg hs]
        exact ⟨hth, hrt, by intro h; exact hcnt (by simpa using h)⟩
    | false =>
      show CBInv (cbOnFailure now cb)
      unfold cbOnFailure
      by_cases h10 : cb.failureThreshold ≤ cb.failureCount + 1
      · simp only [if_pos h10]
        exact ⟨hth, hrt, fun _ => by rw [hth] at h10; simpa using h10⟩
      · simp only [if_neg h10]
        refine ⟨hth, hrt, fun h => ?_⟩
        exact absurd (hcnt (by simpa using h)) (by rw [hth] at h10; omega)
  | avail now =>
    show CBInv (cbOnAvail now cb)
    unfold cbOnAvail
    by_cases ho : cb.state = CircuitState.open
    · by_cases hn : cb.nextRetryTime < now
      · simp only [ho, if_pos rfl, if_pos hn]
        exact ⟨hth, hrt, fun _ => hcnt (Or.inl ho)⟩
      · simp only [ho, if_pos rfl, if_neg hn]
        exact ⟨hth, hrt, hcnt⟩
    · simp only [if_neg ho]
      exact ⟨hth, hrt, hcnt⟩

theorem cbInv_foldl (evs : List CBEvent) :
    ∀ cb, CBInv cb → CBInv (evs.foldl cbStep cb) := by
  induction evs with
  | nil => intro cb h; simpa using h
  | cons e evs ih =>
    intro cb h
    simpa using ih (cbStep cb e) (cbInv_step cb e h)

theorem cbInv_of_reachable (cb : CircuitBreaker) (h : CBReachable cb) :
    CBInv cb := by
  obtain ⟨evs, rfl⟩ := h
  exact cbInv_foldl evs initCB cbInv_init

/-- C3: for every reachable circuit breaker, the three-state automaton is
followed exactly: `Closed→Open` when the failure count reaches the
threshold 10, setting next-retry to now plus the 30 s recovery timeout;
`Open→HalfOpen` exactly once the recovery timeout has elapsed (resetting
the probe counter); `HalfOpen→Closed` on the fifth half-open success, which
zeroes the failure count; `HalfOpen→Open` on any failure while half-open;
and no other transitions occur (successes keep `Closed`/`Open` states
fixed, and the availability probe does not touch a non-`Open` breaker). -/
theorem C3_circuit_breaker_automaton (cb : CircuitBreaker)
    (h : CBReachable cb) :
    (∀ now, cb.state = CircuitState.closed →
        (cbStep cb (CBEvent.outcome now false)).state =
          (if (10 : Int) ≤ cb.failureCount + 1 then CircuitState.open
           else CircuitState.closed) ∧
        ((10 : Int) ≤ cb.failureCount + 1 →
          (cbStep cb (CBEvent.outcome now false)).nextRetryTime =
            now + 30 * nsPerSec)) ∧
    (∀ now, cb.state = CircuitState.closed →
        (cbStep cb (CBEvent.outcome now true)).state = CircuitState.closed) ∧
    (∀ now success, cb.state = CircuitState.open →
        (cbStep cb (CBEvent.outcome now success)).state = CircuitState.open) ∧
    (∀ now, cb.state = CircuitState.open →
        (cbStep cb (CBEvent.avail now)).state =
          (if cb.nextRetryTime < now then CircuitState.halfOpen
           else CircuitState.open) ∧
        (cb.nextRetryTime < now →
          (cbStep cb (CBEvent.avail now)).halfOpenRequests = 0)) ∧
    (∀ now, cb.state = CircuitState.halfOpen →
        (cbStep cb (CBEvent.outcome now true)).state =
          (if (5 : Int) ≤ cb.halfOpenRequests + 1 then CircuitState.closed
           else CircuitState.halfOpen) ∧
        ((5 : Int) ≤ cb.halfOpenRequests + 1 →
          (cbStep cb (CBEvent.outcome now true)).failureCount = 0)) ∧
    (∀ now, cb.state = CircuitState.halfOpen →
        (cbStep cb (CBEvent.outcome now false)).state = CircuitState.open) ∧
    (∀ now, cb.state ≠ CircuitState.open →
        cbStep cb (CBEvent.avail now) = cb) := by
  obtain ⟨hth, hrt, hcnt⟩ := cbInv_of_reachable cb h
  refine ⟨?_, ?_, ?_, ?_, ?_, ?_, ?_⟩
  · intro now hc
    constructor
    · show (cbOnFailure now cb).state = _
      unfold cbOnFailure
      rw [hth]
      by_cases h10 : (10 : Int) ≤ cb.failureCount + 1
      · simp [h10]
      · simp [h10, hc]
    · intro h10
      show (cbOnFailure now cb).nextRetryTime = _
      unfold cbOnFailure
      rw [hth]
      simp [h10, hrt]
  · intro now hc
    show (cbOnSuccess cb).state = _
    unfold cbOnSuccess
    rw [hc]
    simp
  · intro now success ho
    cases success with
    | true =>
      show (cbOnSuccess cb).state = _
      unfold cbOnSuccess
      rw [ho]
      simp
    | false =>
      show (cbOnFailure now cb).state = _
      unfold cbOnFailure
      have h10 : cb.failureThreshold ≤ cb.failureCount + 1 := by
        rw [hth]; have := hcnt (Or.inl ho); omega
      simp [h10]
  · intro now ho
    constructor
    · show (cbOnAvail now cb).state = _
      unfold cbOnAvail
      rw [ho]
      by_cases hn : cb.nextRetryTime < now
      · simp [hn]
      · simp [hn, ho]
    · intro hn
      show (cbOnAvail now cb).halfOpenRequests = 0
      unfold cbOnAvail
      rw [ho]
      simp [hn]
  · intro now hh
    constructor
    · show (cbOnSuccess cb).state = _
      unfold cbOnSuccess
      rw [hh]
      by_cases h5 : (5 : Int) ≤ cb.halfOpenRequests + 1
      · simp [h5]
      · simp [h5, hh]
    · intro h5
      show (cbOnSuccess cb).failureCount = 0
      unfold cbOnSuccess
      rw [hh]
      simp [h5]
  · intro now hh
    show (cbOnFailure now cb).state = _
    unfold cbOnFailure
    have h10 : cb.failureThreshold ≤ cb.failureCount + 1 := by
      rw [hth]; have := hcnt (Or.inr hh); omega
    simp [h10]
  · intro now ho
    show cbOnAvail now cb = cb
    unfold cbOnAvail
    simp [ho]

/-- A concrete reachable breaker used to witness `C3`: ten failures at
time 0 trip it to `Open`, and an availability probe after the recovery
timeout moves it to `HalfOpen`. -/
def cbHalfOpenEx : CircuitBreaker :=
  (List.replicate 10 (CBEvent.outcome 0 false) ++
    [CBEvent.avail (30 * nsPerSec + 1)]).foldl cbStep initCB

theorem C3_circuit_breaker_automaton_witness :
    (cbStep cbHalfOpenEx (CBEvent.outcome 7 false)).state =
      CircuitState.open :=
  (C3_circuit_breaker_automaton cbHalfOpenEx
      ⟨List.replicate 10 (CBEvent.outcome 0 false) ++
        [CBEvent.avail (30 * nsPerSec + 1)], rfl⟩).2.2.2.2.2.1 7 (by decide)

/-! ## Availability filtering (`getAvailableServers`,
server_lifecycle.go:412-441)

The Go loop body consists of the lazy circuit probe, the `Unhealthy`
ten-second exclusion, and the connection cap; there is no check of the
server's `Active` flag. -/

/-- One server's pass through the body of `getAvailableServers`: the
(possibly probe-updated) state, plus whether the server is appended to the
available slice. -/
def availStep (now : Int) (st : ServerState) : ServerState × Bool :=
  let st := { st with circuitBreaker := cbOnAvail now st.circuitBreaker }
  if st.circuitBreaker.state = CircuitState.open then (st, false)
  else if st.healthState = HealthState.unhealthy ∧
      now - st.lastHealthCheck < 10 * nsPerSec then (st, false)
  else if st.connectionPool.maxConnections ≤ st.connectionPool.activeConns then
    (st, false)
  else (st, true)

/-- `getAvailableServers`: all states after the lazy circuit probes, and
the available sublist. -/
def getAvailableServers (now : Int) (servers : List ServerState) :
    List ServerState × List ServerState :=
  let stepped := servers.map (availStep now)
  (stepped.map Prod.fst, (stepped.filter (fun p => p.2)).map Prod.fst)

/-! ## Outcome recording (`UpdateStats` and `updateCalculatedMetrics`,
server_lifecycle.go:537-618) -/

/-- Insertion of a value into a sorted list (ascending). -/
def insertSorted (v : Int) : List Int → List Int
  | [] => [v]
  | x :: xs => if v ≤ x then v :: x :: xs else x :: insertSorted v xs

/-- Ascending sort, modelling Go's `sort.Slice` over the latency samples
(any correct sort yields the same list for a total order). -/
def sortInts (l : List Int) : List Int := l.foldr insertSorted []

/-- The percentile part of `updateCalculatedMetrics`: index the sorted
latency samples at `⌊len·0.95⌋` / `⌊len·0.99⌋` (no interpolation). -/
def percentileUpdate (m : ServerMetrics) : ServerMetrics :=
  let times := sortInts m.responseTimes.getAll
  if 0 < times.length then
    let p95Index := times.length * 95 / 100
    let p99Index := times.length * 99 / 100
    let m := if p95Index < times.length then
        { m with p95ResponseTime := times.getD p95Index 0 } else m
    if p99Index < times.length then
      { m with p99ResponseTime := times.getD p99Index 0 } else m
  else m

/-- `updateCalculatedMetrics`: recompute the error rate as
`1 - success/total` when any request was counted, update the percentile
estimates, and stamp the update time. -/
def updateCalculatedMetrics (now : Int) (st : ServerState) : ServerState :=
  let m := st.metrics
  let m :=
    if 0 < m.requestCount then
      percentileUpdate { m with
        errorRate := 1 - (m.successCount : ℚ) / (m.requestCount : ℚ) }
    else m
  { st with metrics := { m with lastUpdate := now } }

/-- `UpdateStats` on one server state: record the sample, always decrement
the active-connection count, update success/failure counters, breaker,
consecutive-failure count and health state, then recompute derived
metrics. -/
def updateStats (now rt : Int) (success : Bool) (st : ServerState) :
    ServerState :=
  let m := { st.metrics with
    responseTimes := st.metrics.responseTimes.add rt,
    totalLatency := st.metrics.totalLatency + rt }
  let pool := { st.connectionPool with
    activeConns := st.connectionPool.activeConns - 1 }
  let st :=
    if success then
      { st with
        metrics := { m with successCount := m.successCount + 1 },
        circuitBreaker := cbOnSuccess st.circuitBreaker,
        connectionPool := pool,
        consecutiveFails := 0,
        healthState :=
          if st.healthState = HealthState.degraded ∨
              st.healthState = HealthState.recovering then HealthState.healthy
          else st.healthState }
    else
      { st with
        metrics := { m with failureCount := m.failureCount + 1 },
        circuitBreaker := cbOnFailure now st.circuitBreaker,
        connectionPool := pool,
        consecutiveFails := st.consecutiveFails + 1,
        healthState :=
          if 10 ≤ st.consecutiveFails + 1 then HealthState.unhealthy
          else if 3 ≤ st.consecutiveFails + 1 then HealthState.degraded
          else st.healthState }
  updateCalculatedMetrics now st

/-- Balancer-level `UpdateStats`: the server is looked up by URL in the
registry; absent URLs are ignored. -/
def ebUpdateStats (now rt : Int) (success : Bool) (url : String)
    (servers : List ServerState) : List ServerState :=
  servers.map fun st =>
    if st.server.url = url then updateStats now rt success st else st

/-- The two atomic bumps `SelectServer` performs on the selected state
(server_lifecycle.go:358-359). -/
def bumpSelection (st : ServerState) : ServerState :=
  { st with
    metrics := { st.metrics with
      requestCount := st.metrics.requestCount + 1 },
    connectionPool := { st.connectionPool with
      activeConns := st.connectionPool.activeConns + 1 } }

/-! ## Adaptive Weighted Round Robin (`algorithms.go:14-97`) -/

/-- The only mutable field of `AdaptiveWeightedRoundRobin`. -/
structure AWRRState where
  lastUpdate : Int
deriving Repr, DecidableEq

/-- The adaptive effective weight of one server
(`UpdateWeights` loop body, algorithms.go:53-96). -/
def computeEffectiveWeight (s : ServerState) : ServerState :=
  let errorFactor : ℚ :=
    if 0 < s.metrics.errorRate then qmax (1/10) (1 - s.metrics.errorRate * 2)
    else 1
  let baseline : Int := 100 * nsPerMs
  let responseFactor : ℚ :=
    if 0 < s.metrics.p95ResponseTime then
      if baseline < s.metrics.p95ResponseTime then
        qmax (1/10) ((baseline : ℚ) / (s.metrics.p95ResponseTime : ℚ))
      else 6/5
    else 1
  let connFactor : ℚ :=
    if 0 < s.connectionPool.activeConns then
      qmax (1/10) (1 - (s.connectionPool.activeConns : ℚ) /
        (s.connectionPool.maxConnections : ℚ))
    else 1
  let healthFactor : ℚ :=
    match s.healthState with
    | HealthState.healthy => 1
    | HealthState.degraded => 7/10
    | HealthState.recovering => 1/2
    | HealthState.unhealthy => 1/10
  { s with
    effectiveWeight :=
      qmax (1/10) (s.weight * errorFactor * responseFactor * connFactor *
        healthFactor) }

/-- `AdaptiveWeightedRoundRobin.UpdateWeights`: a no-op within five seconds
of the previous recomputation, otherwise every candidate's effective weight
is recomputed. -/
def awrrUpdateWeights (now : Int) (a : AWRRState)
    (servers : List ServerState) : AWRRState × List ServerState :=
  if now - a.lastUpdate < 5 * nsPerSec then (a, servers)
  else (⟨now⟩, servers.map computeEffectiveWeight)

/-- Add the effective weight to the running current weight (the per-server
mutation of the smooth-WRR loop). -/
def addEW (s : ServerState) : ServerState :=
  { s with currentWeight := s.currentWeight + s.effectiveWeight }

/-- Index of the first maximum of a rational list, mirroring the Go scan
that replaces the candidate only on strictly greater `CurrentWeight`. -/
def firstMaxIdx : List ℚ → Nat
  | [] => 0
  | [_] => 0
  | x :: y :: xs =>
      let j := firstMaxIdx (y :: xs)
      if x < (y :: xs).getD j 0 then j + 1 else 0

/-- Modify the element at an index, leaving other elements alone. -/
def modifyAt {α : Type} (l : List α) (i : Nat) (f : α → α) : List α :=
  match l, i with
  | [], _ => []
  | x :: xs, 0 => f x :: xs
  | x :: xs, Nat.succ i => x :: modifyAt xs i f

/-- Sum of the effective weights (the loop's `totalWeight`). -/
def totalEW (l : List ServerState) : ℚ := (l.map (·.effectiveWeight)).sum

/-- Sum of the current weights. -/
def totalCW (l : List ServerState) : ℚ := (l.map (·.currentWeight)).sum

/-- `AdaptiveWeightedRoundRobin.SelectServer`: update weights, add each
effective weight to the corresponding current weight, pick the first
maximal current weight, and subtract the total effective weight from the
winner; returns the algorithm state, the mutated candidate list, and the
winning index. -/
def awrrSelect (now : Int) (a : AWRRState) (servers : List ServerState) :
    AWRRState × List ServerState × Option Nat :=
  if servers.isEmpty then (a, servers, none)
  else
    let aw := awrrUpdateWeights now a servers
    let upd := aw.2.map addEW
    let total := totalEW aw.2
    let sel := firstMaxIdx (upd.map (·.currentWeight))
    let final := modifyAt upd sel
      (fun s => { s with currentWeight := s.currentWeight - total })
    (aw.1, final, some sel)

/-! ### Structural lemmas for the smooth-WRR scan -/

theorem firstMaxIdx_lt (l : List ℚ) (h : l ≠ []) : firstMaxIdx l < l.length := by
  match l with
  | [x] => simp [firstMaxIdx]
  | x :: y :: xs =>
    have ih := firstMaxIdx_lt (y :: xs) (by simp)
    unfold firstMaxIdx
    dsimp only
    split
    · simpa using ih
    · simp

theorem firstMaxIdx_max (l : List ℚ) (i : Nat) (hi : i < l.length) :
    l.getD i 0 ≤ l.getD (firstMaxIdx l) 0 := by
  match l with
  | [x] =>
    have hi0 : i = 0 := by simp at hi; omega
    subst hi0
    simp [firstMaxIdx]
  | x :: y :: xs =>
    have hlt := firstMaxIdx_lt (y :: xs) (by simp)
    unfold firstMaxIdx
    dsimp only
    split
    · rename_i hx
      match i with
      | 0 => simpa using le_of_lt hx
      | Nat.succ i =>
        have := firstMaxIdx_max (y :: xs) i (by simpa using hi)
        simpa using this
    · rename_i hx
      push_neg at hx
      match i with
      | 0 => simp
      | Nat.succ i =>
        have h1 := firstMaxIdx_max (y :: xs) i (by simpa using hi)
        simpa using le_trans h1 hx

theorem modifyAt_length {α : Type} (l : List α) (i : Nat) (f : α → α) :
    (modifyAt l i f).length = l.length := by
  induction l generalizing i with
  | nil => simp [modifyAt]
  | cons x xs ih =>
    cases i with
    | zero => simp [modifyAt]
    | succ i => simp [modifyAt, ih]

theorem modifyAt_getD_ne {α : Type} (l : List α) (i j : Nat) (f : α → α)
    (d : α) (h : j ≠ i) : (modifyAt l i f).getD j d = l.getD j d := by
  induction l generalizing i j with
  | nil => simp [modifyAt]
  | cons x xs ih =>
    cases i with
    | zero =>
      cases j with
      | zero => exact absurd rfl h
      | succ j => simp [modifyAt]
    | succ i =>
      cases j with
      | zero => simp [modifyAt]
      | succ j => simpa [modifyAt] using ih i j (fun hc => h (by omega))

theorem modifyAt_getD_eq {α : Type} (l : List α) (i : Nat) (f : α → α)
    (d : α) (h : i < l.length) :
    (modifyAt l i f).getD i d = f (l.getD i d) := by
  induction l generalizing i with
  | nil => simp at h
  | cons x xs ih =>
    cases i with
    | zero => simp [modifyAt]
    | succ i => simpa [modifyAt] using ih i (by simpa using h)

theorem totalCW_modifyAt_sub (l : List ServerState) (i : Nat) (t : ℚ)
    (h : i < l.length) :
    totalCW (modifyAt l i
      (fun s => { s with currentWeight := s.currentWeight - t })) =
      totalCW l - t := by
  induction l generalizing i with
  | nil => simp at h
  | cons x xs ih =>
    cases i with
    | zero =>
      simp only [modifyAt, totalCW, List.map_cons, List.sum_cons]
      ring
    | succ i =>
      have := ih i (by simpa using h)
      simp only [modifyAt, totalCW, List.map_cons, List.sum_cons] at this ⊢
      rw [this]
      ring

theorem totalCW_map_addEW (l : List ServerState) :
    totalCW (l.map addEW) = totalCW l + totalEW l := by
  induction l with
  | nil => simp [totalCW, totalEW]
  | cons x xs ih =>
    simp only [totalCW, totalEW, List.map_cons, List.sum_cons, addEW] at ih ⊢
    rw [ih]
    ring

theorem totalCW_map_computeEW (l : List ServerState) :
    totalCW (l.map computeEffectiveWeight) = totalCW l := by
  induction l with
  | nil => simp [totalCW]
  | cons x xs ih =>
    simp only [totalCW, List.map_cons, List.sum_cons] at ih ⊢
    rw [ih, computeEffectiveWeight]

theorem awrrUpdateWeights_totalCW (now : Int) (a : AWRRState)
    (l : List ServerState) :
    totalCW (awrrUpdateWeights now a l).2 = totalCW l := by
  unfold awrrUpdateWeights
  split
  · rfl
  · exact totalCW_map_computeEW l

theorem awrrUpdateWeights_length (now : Int) (a : AWRRState)
    (l : List ServerState) :
    (awrrUpdateWeights now a l).2.length = l.length := by
  unfold awrrUpdateWeights
  split
  · rfl
  · simp

/-- The state a fresh URL receives in `UpdateServers`
(server_lifecycle.go:372-391): healthy, closed breaker, a 1000-sample
ring, a 1000-connection pool, and weights seeded from the configured
weight with zero current weight. -/
def initServerState (sv : Server) (now : Int) : ServerState :=
  { server := sv,
    metrics :=
      { requestCount := 0, successCount := 0, failureCount := 0,
        responseTimes := RingBuffer.new 1000, totalLatency := 0,
        p95ResponseTime := 0, p99ResponseTime := 0, errorRate := 0,
        lastUpdate := now },
    healthState := HealthState.healthy,
    circuitBreaker := initCB,
    connectionPool :=
      { maxConnections := 1000, activeConns := 0, waitingConns := 0 },
    lastHealthCheck := 0, consecutiveFails := 0,
    weight := (sv.weight : ℚ), effectiveWeight := (sv.weight : ℚ),
    currentWeight := 0 }

/-- Default element for positional lookups. -/
def dummyState : ServerState :=
  initServerState
    { url := "", weight := 0, active := true, maxConnections := 0,
      healthy := true } 0

theorem getD_map_addEW (l : List ServerState) (i : Nat)
    (h : i < l.length) :
    (l.map addEW).getD i dummyState = addEW (l.getD i dummyState) := by
  induction l generalizing i with
  | nil => simp at h
  | cons x xs ih =>
    cases i with
    | zero => simp
    | succ i => simpa using ih i (by simpa using h)

theorem getD_map_cw (l : List ServerState) (i : Nat) (h : i < l.length) :
    (l.map (·.currentWeight)).getD i 0 = (l.getD i dummyState).currentWeight := by
  induction l generalizing i with
  | nil => simp at h
  | cons x xs ih =>
    cases i with
    | zero => simp
    | succ i => simpa using ih i (by simpa using h)

/-- C10: on every non-empty candidate list, one `SelectServer` call of the
adaptive weighted round-robin leaves the sum of the `CurrentWeight` values
unchanged; every non-selected server's current weight grows by exactly its
(possibly freshly recomputed) effective weight, the selected server's
current weight grows by its effective weight minus the total of all
effective weights, and the selected index carries a maximal current weight
immediately after the additions. -/
theorem C10_awrr_weight_conservation (now : Int) (a : AWRRState)
    (servers : List ServerState) (h : servers ≠ []) :
    ∃ sel : Nat,
      (awrrSelect now a servers).2.2 = some sel ∧
      totalCW (awrrSelect now a servers).2.1 = totalCW servers ∧
      sel < servers.length ∧
      (∀ i, i < servers.length →
        (((awrrUpdateWeights now a servers).2.map addEW).getD i
            dummyState).currentWeight ≤
          (((awrrUpdateWeights now a servers).2.map addEW).getD sel
            dummyState).currentWeight) ∧
      (∀ i, i < servers.length → i ≠ sel →
        ((awrrSelect now a servers).2.1.getD i dummyState).currentWeight =
          ((awrrUpdateWeights now a servers).2.getD i
              dummyState).currentWeight +
            ((awrrUpdateWeights now a servers).2.getD i
              dummyState).effectiveWeight) ∧
      ((awrrSelect now a servers).2.1.getD sel dummyState).currentWeight =
        ((awrrUpdateWeights now a servers).2.getD sel
            dummyState).currentWeight +
          ((awrrUpdateWeights now a servers).2.getD sel
            dummyState).effectiveWeight -
          totalEW (awrrUpdateWeights now a servers).2 := by
  have hne : ¬ servers.isEmpty := by simpa [List.isEmpty_iff] using h
  have hlen : (awrrUpdateWeights now a servers).2.length = servers.length :=
    awrrUpdateWeights_length now a servers
  set aw2 := (awrrUpdateWeights now a servers).2 with haw2
  set upd := aw2.map addEW with hupd
  have hupdlen : upd.length = servers.length := by
    simp [hupd, hlen]
  have hcwlen : (upd.map (·.currentWeight)).length = servers.length := by
    simp [hupdlen]
  have hcwne : upd.map (·.currentWeight) ≠ [] := by
    intro hc
    have := congrArg List.length hc
    simp [hcwlen] at this
    exact h this
  set sel := firstMaxIdx (upd.map (·.currentWeight)) with hsel
  have hsellt : sel < servers.length := by
    have := firstMaxIdx_lt (upd.map (·.currentWeight)) hcwne
    rwa [hcwlen] at this
  have hawsel : (awrrSelect now a servers).2.2 = some sel := by
    simp only [awrrSelect, hne]
    rfl
  have hawlist : (awrrSelect now a servers).2.1 =
      modifyAt upd sel
        (fun s => { s with currentWeight := s.currentWeight - totalEW aw2 }) := by
    simp only [awrrSelect, hne]
    rfl
  refine ⟨sel, hawsel, ?_, hsellt, ?_, ?_, ?_⟩
  · rw [hawlist, totalCW_modifyAt_sub upd sel (totalEW aw2)
      (by rw [hupdlen]; exact hsellt)]
    rw [hupd, totalCW_map_addEW]
    have : totalCW aw2 = totalCW servers := awrrUpdateWeights_totalCW now a servers
    rw [this]
    ring
  · intro i hi
    have h1 := firstMaxIdx_max (upd.map (·.currentWeight)) i
      (by rwa [hcwlen])
    rw [getD_map_cw upd i (by rwa [hupdlen]),
      getD_map_cw upd sel (by rwa [hupdlen])] at h1
    exact h1
  · intro i hi hne'
    rw [hawlist, modifyAt_getD_ne upd sel i _ dummyState hne',
      getD_map_addEW aw2 i (by rwa [hlen])]
    simp [addEW]
  · rw [hawlist, modifyAt_getD_eq upd sel _ dummyState
      (by rw [hupdlen]; exact hsellt),
      getD_map_addEW aw2 sel (by rwa [hlen])]
    simp [addEW]

theorem C10_awrr_weight_conservation_witness :
    ∃ sel : Nat,
      (awrrSelect 0 ⟨0⟩
          [initServerState
            { url := "u1", weight := 1, active := true,
              maxConnections := 0, healthy := true } 0,
           initServerState
            { url := "u2", weight := 2, active := true,
              maxConnections := 0, healthy := true } 0]).2.2 = some sel ∧
      totalCW (awrrSelect 0 ⟨0⟩
          [initServerState
            { url := "u1", weight := 1, active := true,
              maxConnections := 0, healthy := true } 0,
           initServerState
            { url := "u2", weight := 2, active := true,
              maxConnections := 0, healthy := true } 0]).2.1 =
        totalCW
          [initServerState
            { url := "u1", weight := 1, active := true,
              maxConnections := 0, healthy := true } 0,
           initServerState
            { url := "u2", weight := 2, active := true,
              maxConnections := 0, healthy := true } 0] ∧
      sel < 2 ∧
      (∀ i, i < 2 →
        (((awrrUpdateWeights 0 ⟨0⟩
              [initServerState
                { url := "u1", weight := 1, active := true,
                  maxConnections := 0, healthy := true } 0,
               initServerState
                { url := "u2", weight := 2, active := true,
                  maxConnections := 0, healthy := true } 0]).2.map
            addEW).getD i dummyState).currentWeight ≤
          (((awrrUpdateWeights 0 ⟨0⟩
              [initServerState
                { url := "u1", weight := 1, active := true,
                  maxConnections := 0, healthy := true } 0,
               initServerState
                { url := "u2", weight := 2, active := true,
                  maxConnections := 0, healthy := true } 0]).2.map
            addEW).getD sel dummyState).currentWeight) ∧
      (∀ i, i < 2 → i ≠ sel →
        ((awrrSelect 0 ⟨0⟩
            [initServerState
              { url := "u1", weight := 1, active := true,
                maxConnections := 0, healthy := true } 0,
             initServerState
              { url := "u2", weight := 2, active := true,
                maxConnections := 0, healthy := true } 0]).2.1.getD i
            dummyState).currentWeight =
          ((awrrUpdateWeights 0 ⟨0⟩
              [initServerState
                { url := "u1", weight := 1, active := true,
                  maxConnections := 0, healthy := true } 0,
               initServerState
                { url := "u2", weight := 2, active := true,
                  maxConnections := 0, healthy := true } 0]).2.getD i
              dummyState).currentWeight +
            ((awrrUpdateWeights 0 ⟨0⟩
              [initServerState
                { url := "u1", weight := 1, active := true,
                  maxConnections := 0, healthy := true } 0,
               initServerState
                { url := "u2", weight := 2, active := true,
                  maxConnections := 0, healthy := true } 0]).2.getD i
              dummyState).effectiveWeight) ∧
      ((awrrSelect 0 ⟨0⟩
          [initServerState
            { url := "u1", weight := 1, active := true,
              maxConnections := 0, healthy := true } 0,
           initServerState
            { url := "u2", weight := 2, active := true,
              maxConnections := 0, healthy := true } 0]).2.1.getD sel
          dummyState).currentWeight =
        ((awrrUpdateWeights 0 ⟨0⟩
            [initServerState
              { url := "u1", weight := 1, active := true,
                maxConnections := 0, healthy := true } 0,
             initServerState
              { url := "u2", weight := 2, active := true,
                maxConnections := 0, healthy := true } 0]).2.getD sel
            dummyState).currentWeight +
          ((awrrUpdateWeights 0 ⟨0⟩
            [initServerState
              { url := "u1", weight := 1, active := true,
                maxConnections := 0, healthy := true } 0,
             initServerState
              { url := "u2", weight := 2, active := true,
                maxConnections := 0, healthy := true } 0]).2.getD sel
            dummyState).effectiveWeight -
          totalEW (awrrUpdateWeights 0 ⟨0⟩
            [initServerState
              { url := "u1", weight := 1, active := true,
                maxConnections := 0, healthy := true } 0,
             initServerState
              { url := "u2", weight := 2, active := true,
                maxConnections := 0, healthy := true } 0]).2 := by
  have := C10_awrr_weight_conservation 0 ⟨0⟩
    [initServerState
      { url := "u1", weight := 1, active := true, maxConnections := 0,
        healthy := true } 0,
     initServerState
      { url := "u2", weight := 2, active := true, maxConnections := 0,
        healthy := true } 0] (by simp)
  simpa using this

/-! ## Claim C8: the adaptive effective-weight formula -/

/-- The error factor in the claim's `max(0.1, 1 − 2·errorRate)` form. -/
def errorFactorQ (er : ℚ) : ℚ := qmax (1/10) (1 - er * 2)

/-- The response factor exactly as the code computes it: `1` when no p95
estimate exists yet, `max(0.1, baseline/p95)` when p95 exceeds the 100 ms
baseline, and the `1.2` fast-server bonus otherwise. -/
def responseFactorQ (p95 : Int) : ℚ :=
  if 0 < p95 then
    if 100 * nsPerMs < p95 then
      qmax (1/10) (((100 * nsPerMs : Int) : ℚ) / (p95 : ℚ))
    else 6/5
  else 1

/-- The connection factor in the claim's `max(0.1, 1 − active/maxConns)`
form. -/
def connFactorQ (active maxC : Int) : ℚ :=
  qmax (1/10) (1 - (active : ℚ) / (maxC : ℚ))

/-- The health factor table. -/
def healthFactorQ : HealthState → ℚ
  | HealthState.healthy => 1
  | HealthState.degraded => 7/10
  | HealthState.recovering => 1/2
  | HealthState.unhealthy => 1/10

/-- Modelled from the claim's wording (C8): the effective weight as the
configured weight times `max(0.1, 1−2·errorRate)`, times `baseline/p95` if
p95 > 100 ms else `1.2`, times `max(0.1, 1−active/maxConns)`, times the
health factor, floored at `0.1`. -/
def claimedEffectiveWeightC8 (s : ServerState) : ℚ :=
  let baseline : Int := 100 * nsPerMs
  let responseFactor : ℚ :=
    if baseline < s.metrics.p95ResponseTime then
      (baseline : ℚ) / (s.metrics.p95ResponseTime : ℚ)
    else 6/5
  qmax (1/10)
    (s.weight * errorFactorQ s.metrics.errorRate * responseFactor *
      connFactorQ s.connectionPool.activeConns
        s.connectionPool.maxConnections *
      healthFactorQ s.healthState)

/-- A fresh server used to refute C8: it has no p95 estimate yet
(`p95 = 0`). -/
def c8Server : ServerState :=
  initServerState
    { url := "u1", weight := 1, active := true, maxConnections := 0,
      healthy := true } 0

/-- C8 counterexample: on a server with no p95 estimate (`p95 = 0`,
reachable as the initial state), the code computes effective weight `1`
(response factor `1.0`), while the claim's formula (`1.2` whenever p95 is
not above 100 ms) yields `1.2`. -/
theorem C8_effective_weight_counterexample :
    (computeEffectiveWeight c8Server).effectiveWeight = 1 ∧
    claimedEffectiveWeightC8 c8Server = 6/5 ∧
    (computeEffectiveWeight c8Server).effectiveWeight ≠
      claimedEffectiveWeightC8 c8Server := by
  refine ⟨by with_unfolding_all decide, by with_unfolding_all decide,
    by with_unfolding_all decide⟩

/-- C8 amended: effective weights are recomputed only when at least five
seconds have passed since the previous recomputation; the recomputed
weight is the configured weight times `max(0.1, 1−2·errorRate)`, times the
response factor (`1` when p95 is still zero, `max(0.1, baseline/p95)` when
p95 > 100 ms, else `1.2`), times `max(0.1, 1−active/maxConns)`, times the
health factor, floored at `0.1`; and it is never below `0.1`. -/
theorem C8_effective_weight_amended (now : Int) (a : AWRRState)
    (servers : List ServerState) (s : ServerState) :
    (now - a.lastUpdate < 5 * nsPerSec →
      awrrUpdateWeights now a servers = (a, servers)) ∧
    (¬ now - a.lastUpdate < 5 * nsPerSec →
      (awrrUpdateWeights now a servers).2 =
        servers.map computeEffectiveWeight) ∧
    (0 ≤ s.metrics.errorRate → 0 ≤ s.connectionPool.activeConns →
      (computeEffectiveWeight s).effectiveWeight =
        qmax (1/10)
          (s.weight * errorFactorQ s.metrics.errorRate *
            responseFactorQ s.metrics.p95ResponseTime *
            connFactorQ s.connectionPool.activeConns
              s.connectionPool.maxConnections *
            healthFactorQ s.healthState)) ∧
    (1/10 : ℚ) ≤ (computeEffectiveWeight s).effectiveWeight := by
  refine ⟨?_, ?_, ?_, ?_⟩
  · intro hlt
    unfold awrrUpdateWeights
    rw [if_pos hlt]
  · intro hlt
    unfold awrrUpdateWeights
    rw [if_neg hlt]
  · intro her hac
    unfold computeEffectiveWeight
    dsimp only
    have herf : (if 0 < s.metrics.errorRate then
        qmax (1/10 : ℚ) (1 - s.metrics.errorRate * 2) else 1) =
        errorFactorQ s.metrics.errorRate := by
      unfold errorFactorQ
      rcases lt_or_eq_of_le her with h | h
      · rw [if_pos h]
      · rw [if_neg (by rw [← h]; exact lt_irrefl 0), ← h]
        with_unfolding_all decide
    have hcf : (if 0 < s.connectionPool.activeConns then
        qmax (1/10 : ℚ) (1 - (s.connectionPool.activeConns : ℚ) /
          (s.connectionPool.maxConnections : ℚ)) else 1) =
        connFactorQ s.connectionPool.activeConns
          s.connectionPool.maxConnections := by
      unfold connFactorQ
      rcases lt_or_eq_of_le hac with h | h
      · rw [if_pos h]
      · rw [if_neg (by rw [← h]; exact lt_irrefl 0), ← h]
        norm_num [qmax]
    have hrf : (if 0 < s.metrics.p95ResponseTime then
        if 100 * nsPerMs < s.metrics.p95ResponseTime then
          qmax (1/10 : ℚ)
            (((100 * nsPerMs : Int) : ℚ) / (s.metrics.p95ResponseTime : ℚ))
        else 6/5
      else 1) = responseFactorQ s.metrics.p95ResponseTime := by
      unfold responseFactorQ
      rfl
    have hhf : (match s.healthState with
        | HealthState.healthy => (1 : ℚ)
        | HealthState.degraded => 7/10
        | HealthState.recovering => 1/2
        | HealthState.unhealthy => 1/10) = healthFactorQ s.healthState := by
      cases s.healthState <;> rfl
    rw [herf, hcf, hrf, hhf]
  · unfold computeEffectiveWeight
    dsimp only
    exact qmax_le_left _ _

theorem C8_effective_weight_amended_witness :
    (computeEffectiveWeight c8Server).effectiveWeight =
      qmax (1/10)
        (c8Server.weight * errorFactorQ c8Server.metrics.errorRate *
          responseFactorQ c8Server.metrics.p95ResponseTime *
          connFactorQ c8Server.connectionPool.activeConns
            c8Server.connectionPool.maxConnections *
          healthFactorQ c8Server.healthState) :=
  (C8_effective_weight_amended 0 ⟨0⟩ [] c8Server).2.2.1
    (by with_unfolding_all decide) (by decide)

/-! ## Claim C7: the derived error rate -/

theorem percentileUpdate_errorRate (m : ServerMetrics) :
    (percentileUpdate m).errorRate = m.errorRate := by
  unfold percentileUpdate
  dsimp only
  split
  · split <;> split <;> rfl
  · rfl

theorem percentileUpdate_requestCount (m : ServerMetrics) :
    (percentileUpdate m).requestCount = m.requestCount := by
  unfold percentileUpdate
  dsimp only
  split
  · split <;> split <;> rfl
  · rfl

theorem percentileUpdate_successCount (m : ServerMetrics) :
    (percentileUpdate m).successCount = m.successCount := by
  unfold percentileUpdate
  dsimp only
  split
  · split <;> split <;> rfl
  · rfl

theorem percentileUpdate_failureCount (m : ServerMetrics) :
    (percentileUpdate m).failureCount = m.failureCount := by
  unfold percentileUpdate
  dsimp only
  split
  · split <;> split <;> rfl
  · rfl

theorem updateCalculatedMetrics_errorRate (now : Int) (st : ServerState)
    (h : 0 < st.metrics.requestCount) :
    (updateCalculatedMetrics now st).metrics.errorRate =
      1 - (st.metrics.successCount : ℚ) / (st.metrics.requestCount : ℚ) := by
  unfold updateCalculatedMetrics
  dsimp only
  rw [if_pos h]
  simp [percentileUpdate_errorRate]

theorem updateCalculatedMetrics_requestCount (now : Int) (st : ServerState) :
    (updateCalculatedMetrics now st).metrics.requestCount =
      st.metrics.requestCount := by
  unfold updateCalculatedMetrics
  dsimp only
  split
  · simp [percentileUpdate_requestCount]
  · rfl

theorem updateCalculatedMetrics_successCount (now : Int) (st : ServerState) :
    (updateCalculatedMetrics now st).metrics.successCount =
      st.metrics.successCount := by
  unfold updateCalculatedMetrics
  dsimp only
  split
  · simp [percentileUpdate_successCount]
  · rfl

theorem updateCalculatedMetrics_failureCount (now : Int) (st : ServerState) :
    (updateCalculatedMetrics now st).metrics.failureCount =
      st.metrics.failureCount := by
  unfold updateCalculatedMetrics
  dsimp only
  split
  · simp [percentileUpdate_failureCount]
  · rfl

/-- C7 amended: after every `UpdateStats` on a server whose request count
is positive, the derived error rate is `1 − successCount/requestCount`
(not `failureCount/requestCount`); the two agree exactly when the request
count equals the sum of recorded successes and failures. -/
theorem C7_error_rate_amended (now rt : Int) (success : Bool)
    (st : ServerState) (h : 0 < st.metrics.requestCount) :
    (updateStats now rt success st).metrics.errorRate =
      1 - ((updateStats now rt success st).metrics.successCount : ℚ) /
        ((updateStats now rt success st).metrics.requestCount : ℚ) ∧
    ((updateStats now rt success st).metrics.requestCount =
        (updateStats now rt success st).metrics.successCount +
          (updateStats now rt success st).metrics.failureCount →
      (updateStats now rt success st).metrics.errorRate =
        ((updateStats now rt success st).metrics.failureCount : ℚ) /
          ((updateStats now rt success st).metrics.requestCount : ℚ)) := by
  have key : ∀ st' : ServerState, st'.metrics.requestCount =
      st.metrics.requestCount →
      (updateCalculatedMetrics now st').metrics.errorRate =
        1 - ((updateCalculatedMetrics now st').metrics.successCount : ℚ) /
          ((updateCalculatedMetrics now st').metrics.requestCount : ℚ) := by
    intro st' hrc
    rw [updateCalculatedMetrics_errorRate now st' (by rw [hrc]; exact h),
      updateCalculatedMetrics_successCount,
      updateCalculatedMetrics_requestCount]
  have main : (updateStats now rt success st).metrics.errorRate =
      1 - ((updateStats now rt success st).metrics.successCount : ℚ) /
        ((updateStats now rt success st).metrics.requestCount : ℚ) := by
    cases success with
    | true => exact key _ rfl
    | false => exact key _ rfl
  refine ⟨main, fun hsum => ?_⟩
  have hrc : (updateStats now rt success st).metrics.requestCount =
      st.metrics.requestCount := by
    cases success with
    | true =>
      show (updateCalculatedMetrics now _).metrics.requestCount = _
      rw [updateCalculatedMetrics_requestCount]
      rfl
    | false =>
      show (updateCalculatedMetrics now _).metrics.requestCount = _
      rw [updateCalculatedMetrics_requestCount]
      rfl
  set T := (updateStats now rt success st).metrics.requestCount with hT
  set S := (updateStats now rt success st).metrics.successCount with hS
  set F := (updateStats now rt success st).metrics.failureCount with hF
  have hTpos : (0 : ℚ) < (T : ℚ) := by
    have : 0 < T := by rw [hrc]; exact h
    exact_mod_cast this
  have hcast : (T : ℚ) = (S : ℚ) + (F : ℚ) := by exact_mod_cast hsum
  rw [main]
  field_simp
  linarith [hcast]

/-- A server with one pending selection used across the C7 statements. -/
def c7Server : ServerState :=
  initServerState
    { url := "u1", weight := 1, active := true, maxConnections := 0,
      healthy := true } 0

/-- The C7 counterexample trace: two selections are in flight
(`RequestCount = 2` via `SelectServer`), then one of them completes
successfully.  The recomputed error rate is `1 − 1/2 = 1/2`, while
`failures/total = 0/2 = 0`. -/
def c7Trace : ServerState :=
  updateStats 0 (5 * nsPerMs) true (bumpSelection (bumpSelection c7Server))

/-- C7 counterexample: after an `UpdateStats` the derived error rate does
not equal `failureCount/requestCount` — the code computes
`1 − successCount/requestCount`, and the two differ whenever selections
are still in flight. -/
theorem C7_error_rate_counterexample :
    c7Trace.metrics.requestCount = 2 ∧
    c7Trace.metrics.successCount = 1 ∧
    c7Trace.metrics.failureCount = 0 ∧
    c7Trace.metrics.errorRate = 1/2 ∧
    (c7Trace.metrics.failureCount : ℚ) /
      (c7Trace.metrics.requestCount : ℚ) = 0 ∧
    c7Trace.metrics.errorRate ≠
      (c7Trace.metrics.failureCount : ℚ) /
        (c7Trace.metrics.requestCount : ℚ) := by
  refine ⟨by with_unfolding_all decide, by with_unfolding_all decide,
    by with_unfolding_all decide, by with_unfolding_all decide,
    by with_unfolding_all decide, by with_unfolding_all decide⟩

theorem C7_error_rate_amended_witness :
    (updateStats 0 (5 * nsPerMs) true (bumpSelection c7Server)).metrics.errorRate =
      1 - ((updateStats 0 (5 * nsPerMs) true
          (bumpSelection c7Server)).metrics.successCount : ℚ) /
        ((updateStats 0 (5 * nsPerMs) true
          (bumpSelection c7Server)).metrics.requestCount : ℚ) ∧
    (updateStats 0 (5 * nsPerMs) true
        (bumpSelection c7Server)).metrics.errorRate =
      ((updateStats 0 (5 * nsPerMs) true
          (bumpSelection c7Server)).metrics.failureCount : ℚ) /
        ((updateStats 0 (5 * nsPerMs) true
          (bumpSelection c7Server)).metrics.requestCount : ℚ) := by
  have happ := C7_error_rate_amended 0 (5 * nsPerMs) true
    (bumpSelection c7Server) (by with_unfolding_all decide)
  exact ⟨happ.1, happ.2 (by with_unfolding_all decide)⟩

/-! ## Claim C1: the selection eligibility invariant

`getAvailableServers` applies three checks — circuit breaker, recent
`Unhealthy` classification, and the connection cap — and never reads the
server's `Active` flag. -/

/-- The eligibility condition that `getAvailableServers` actually
enforces. -/
def eligible (now : Int) (st : ServerState) : Prop :=
  (st.circuitBreaker.state ≠ CircuitState.open ∨
    st.circuitBreaker.nextRetryTime < now) ∧
  ¬(st.healthState = HealthState.unhealthy ∧
    now - st.lastHealthCheck < 10 * nsPerSec) ∧
  st.connectionPool.activeConns < st.connectionPool.maxConnections

instance (now : Int) (st : ServerState) : Decidable (eligible now st) := by
  unfold eligible
  infer_instance

theorem availStep_server (now : Int) (st : ServerState) :
    (availStep now st).1.server = st.server := by
  unfold availStep
  dsimp only
  split
  · rfl
  · split
    · rfl
    · split
      · rfl
      · rfl

theorem availStep_true_iff (now : Int) (st : ServerState) :
    (availStep now st).2 = true ↔ eligible now st := by
  unfold availStep cbOnAvail eligible
  by_cases ho : st.circuitBreaker.state = CircuitState.open
  · by_cases hn : st.circuitBreaker.nextRetryTime < now
    · simp only [ho, if_pos rfl, if_pos hn]
      by_cases hh : st.healthState = HealthState.unhealthy ∧
          now - st.lastHealthCheck < 10 * nsPerSec
      · simp [hh, ho, hn]
      · by_cases hc : st.connectionPool.maxConnections ≤
            st.connectionPool.activeConns
        · simp [hh, hc, ho, hn]
          try omega
        · simp [hh, hc, ho, hn]
          try omega
    · simp [ho, hn]
  · simp only [if_neg ho]
    by_cases hh : st.healthState = HealthState.unhealthy ∧
        now - st.lastHealthCheck < 10 * nsPerSec
    · simp [ho, hh]
    · by_cases hc : st.connectionPool.maxConnections ≤
          st.connectionPool.activeConns
      · simp [ho, hh, hc]
        try omega
      · simp [ho, hh, hc]
        try omega

/-- Members of the available sublist originate from eligible servers of
the registry. -/
theorem mem_available (now : Int) (servers : List ServerState)
    (y : ServerState) (hy : y ∈ (getAvailableServers now servers).2) :
    ∃ st ∈ servers, y.server = st.server ∧ eligible now st := by
  unfold getAvailableServers at hy
  dsimp only at hy
  obtain ⟨p, hp, rfl⟩ := List.mem_map.mp hy
  have hp2 := (List.mem_filter.mp hp).2
  have hp1 := (List.mem_filter.mp hp).1
  obtain ⟨st, hst, rfl⟩ := List.mem_map.mp hp1
  refine ⟨st, hst, availStep_server now st, ?_⟩
  exact (availStep_true_iff now st).mp (by simpa using hp2)

theorem map_modifyAt_invariant {α β : Type} (g : α → β) (f : α → α)
    (h : ∀ x, g (f x) = g x) (l : List α) (i : Nat) :
    (modifyAt l i f).map g = l.map g := by
  induction l generalizing i with
  | nil => rfl
  | cons x xs ih =>
    cases i with
    | zero => simp [modifyAt, h]
    | succ i => simp [modifyAt, ih]

theorem awrrSelect_servers (now : Int) (a : AWRRState)
    (l : List ServerState) :
    (awrrSelect now a l).2.1.map (·.server) = l.map (·.server) := by
  unfold awrrSelect
  split
  · rfl
  · dsimp only
    rw [map_modifyAt_invariant (fun s : ServerState => s.server)
      (fun s : ServerState =>
        { s with currentWeight :=
            s.currentWeight - totalEW (awrrUpdateWeights now a l).2 })
      (fun x => rfl)
      ((awrrUpdateWeights now a l).2.map addEW)
      (firstMaxIdx (((awrrUpdateWeights now a l).2.map addEW).map
        (·.currentWeight)))]
    rw [List.map_map]
    have haddEW : ((fun s : ServerState => s.server) ∘ addEW) =
        (fun s : ServerState => s.server) := by
      funext s
      rfl
    rw [haddEW]
    unfold awrrUpdateWeights
    split
    · rfl
    · dsimp only
      rw [List.map_map]
      rfl

theorem awrrSelect_length (now : Int) (a : AWRRState)
    (l : List ServerState) :
    (awrrSelect now a l).2.1.length = l.length := by
  have := congrArg List.length (awrrSelect_servers now a l)
  simpa using this

theorem awrrSelect_some_lt (now : Int) (a : AWRRState)
    (l : List ServerState) (sel : Nat)
    (h : (awrrSelect now a l).2.2 = some sel) : sel < l.length := by
  unfold awrrSelect at h
  by_cases he : l.isEmpty
  · rw [if_pos he] at h
    simp at h
  · rw [if_neg he] at h
    dsimp only at h
    have hsel : sel = firstMaxIdx
        (((awrrUpdateWeights now a l).2.map addEW).map (·.currentWeight)) := by
      injection h with h'
      exact h'.symm
    have hlen : (awrrUpdateWeights now a l).2.length = l.length :=
      awrrUpdateWeights_length now a l
    have hne : ((awrrUpdateWeights now a l).2.map addEW).map
        (·.currentWeight) ≠ [] := by
      intro hc
      have := congrArg List.length hc
      simp [hlen] at this
      rw [this] at he
      simp at he
    have := firstMaxIdx_lt _ hne
    rw [hsel]
    simpa [hlen] using this

/-- Balancer `SelectServer` specialised to the default
`adaptive_weighted` algorithm: filter to the available set, return `nil`
when it is empty, run the algorithm, and bump the winner's request and
connection counters. -/
def ebSelectAWRR (now : Int) (a : AWRRState)
    (servers : List ServerState) : Option ServerState :=
  let avail := (getAvailableServers now servers).2
  if avail.isEmpty then none
  else
    match awrrSelect now a avail with
    | (_, final, some sel) => (final.get? sel).map bumpSelection
    | (_, _, none) => none

/-- C1 amended: the eligibility filter enforces only the circuit, health
and connection-cap conditions — every server returned by `SelectServer`
satisfies those three — and the `active` flag is NOT part of the filter,
so a draining (`active = false`) server can be returned (see the
counterexample). -/
theorem C1_eligibility_amended (now : Int) (a : AWRRState)
    (servers : List ServerState) :
    (∀ st : ServerState, ((availStep now st).2 = true ↔ eligible now st)) ∧
    (∀ sel : ServerState, ebSelectAWRR now a servers = some sel →
      ∃ st ∈ servers, sel.server = st.server ∧ eligible now st) := by
  refine ⟨fun st => availStep_true_iff now st, fun sel hsel => ?_⟩
  unfold ebSelectAWRR at hsel
  dsimp only at hsel
  by_cases he : (getAvailableServers now servers).2.isEmpty
  · rw [if_pos he] at hsel
    simp at hsel
  · rw [if_neg he] at hsel
    set avail := (getAvailableServers now servers).2 with havail
    rcases hrw : awrrSelect now a avail with ⟨a', final, osel⟩
    rw [hrw] at hsel
    cases osel with
    | none => simp at hsel
    | some j =>
      dsimp only at hsel
      rcases hg : final.get? j with _ | x
      · rw [hg] at hsel
        simp at hsel
      · rw [hg] at hsel
        have hxsel : bumpSelection x = sel := by
          simpa using hsel
        have hjlt : j < avail.length := by
          have := awrrSelect_some_lt now a avail j (by rw [hrw])
          exact this
        have hxmem : x ∈ final := List.get?_mem hg
        have hfinal : final = (awrrSelect now a avail).2.1 := by
          rw [hrw]
        have hmemavail : ∃ y ∈ avail, y.server = x.server := by
          have hsrvs : final.map (·.server) = avail.map (·.server) := by
            rw [hfinal]
            exact awrrSelect_servers now a avail
          have : x.server ∈ final.map (·.server) :=
            List.mem_map.mpr ⟨x, hxmem, rfl⟩
          rw [hsrvs] at this
          obtain ⟨y, hy, hyx⟩ := List.mem_map.mp this
          exact ⟨y, hy, hyx⟩
        obtain ⟨y, hy, hyx⟩ := hmemavail
        obtain ⟨st, hst, hys, helig⟩ := mem_available now servers y hy
        refine ⟨st, hst, ?_, helig⟩
        rw [← hxsel]
        show x.server = st.server
        rw [← hyx, hys]

/-- A freshly registered draining server: `Active = false`, breaker
closed, healthy, no connections.  Reachable because `StartGracefulRemoval`
sets `server.Active = false` while the server stays in the registry. -/
def c1Inactive : ServerState :=
  initServerState
    { url := "draining", weight := 1, active := false, maxConnections := 0,
      healthy := true } 0

/-- C1 counterexample: `SelectServer` returns the draining
(`active = false`) server — the eligibility filter never consults the
`Active` flag, so the claim's `active = true` conjunct (and "a draining
server is never returned") fails on the code. -/
theorem C1_active_flag_counterexample :
    c1Inactive.server.active = false ∧
    (ebSelectAWRR 0 ⟨0⟩ [c1Inactive]).map (fun s => s.server) =
      some { url := "draining", weight := 1, active := false,
             maxConnections := 0, healthy := true } :=
  ⟨rfl, by with_unfolding_all decide⟩

theorem C1_eligibility_amended_witness :
    ∃ st ∈ [c7Server],
      (Option.getD (ebSelectAWRR 0 ⟨0⟩ [c7Server]) dummyState).server =
        st.server ∧ eligible 0 st :=
  (C1_eligibility_amended 0 ⟨0⟩ [c7Server]).2
    (Option.getD (ebSelectAWRR 0 ⟨0⟩ [c7Server]) dummyState)
    (by with_unfolding_all rfl)

/-! ## Claim C2: pairing of connection increments and decrements

`SelectServer` increments `ActiveConns` for the server it returns
(server_lifecycle.go:359) and `UpdateStats` unconditionally decrements it
(server_lifecycle.go:549).  The request forwarder reaches `UpdateStats`
from `ModifyResponse` and `ErrorHandler` (proxy_service.go:133-170).  Two
exit paths break the pairing:

* sticky-session reuse (proxy_service.go:66-70) returns the remembered
  server without calling the balancer, so no increment happens, yet the
  outcome is still recorded — one spurious decrement;
* the transport-error retry (proxy_service.go:154-166) selects a second
  server (incrementing it) and proxies through a fresh
  `httputil.NewSingleHostReverseProxy` that has no
  `ModifyResponse`/`ErrorHandler`, so the retry server's outcome is never
  recorded — its increment is never matched. -/

/-- The request-count/connection bumps of `SelectServer` applied to the
server the balancer picked (parameterised by URL). -/
def selectByUrl (url : String) (servers : List ServerState) :
    List ServerState :=
  servers.map fun st =>
    if st.server.url = url then bumpSelection st else st

/-- The exit paths of one forwarded request. -/
inductive RequestPath where
  | plain (success : Bool)
  | stickyReuse (success : Bool)
  | transportRetry
deriving Repr, DecidableEq

/-- Connection-count effect of one complete request on the registry, per
exit path, with the balancer's choices given by `origUrl`/`retryUrl`:
`plain` = select, proxy, record outcome; `stickyReuse` = skip selection
(session map hit), proxy, record outcome; `transportRetry` = select,
record the transport failure, select the retry server and proxy through
the handler-less retry proxy (no outcome recorded for it). -/
def requestFlow (now rt : Int) (origUrl retryUrl : String)
    (path : RequestPath) (servers : List ServerState) :
    List ServerState :=
  match path with
  | RequestPath.plain success =>
      ebUpdateStats now rt success origUrl (selectByUrl origUrl servers)
  | RequestPath.stickyReuse success =>
      ebUpdateStats now rt success origUrl servers
  | RequestPath.transportRetry =>
      selectByUrl retryUrl
        (ebUpdateStats now rt false origUrl (selectByUrl origUrl servers))

/-- The active-connection count of the named server. -/
def activeConnsOf (url : String) (servers : List ServerState) : Int :=
  ((servers.find? fun st => st.server.url == url).map
    fun st => st.connectionPool.activeConns).getD 0

/-- The two-server registry used for the C2 evaluation. -/
def c2Servers : List ServerState :=
  [initServerState
    { url := "u1", weight := 1, active := true, maxConnections := 0,
      healthy := true } 0,
   initServerState
    { url := "u2", weight := 1, active := true, maxConnections := 0,
      healthy := true } 0]

/-- C2: the pairing invariant holds on the plain path but fails on two
exit paths the claim covers.  After a sticky-session reuse the reused
server's count drifts to `-1` (decrement without increment), and after a
transport-error retry the retry server's count stays at `1` although the
request has completed (increment never matched by a decrement). -/
theorem C2_connection_pairing_evaluation :
    activeConnsOf "u1" c2Servers = 0 ∧
    activeConnsOf "u2" c2Servers = 0 ∧
    activeConnsOf "u1"
      (requestFlow 0 (5 * nsPerMs) "u1" "u2" (RequestPath.plain true)
        c2Servers) = 0 ∧
    activeConnsOf "u1"
      (requestFlow 0 (5 * nsPerMs) "u1" "u2" (RequestPath.stickyReuse true)
        c2Servers) = -1 ∧
    activeConnsOf "u1"
      (requestFlow 0 (5 * nsPerMs) "u1" "u2" RequestPath.transportRetry
        c2Servers) = 0 ∧
    activeConnsOf "u2"
      (requestFlow 0 (5 * nsPerMs) "u1" "u2" RequestPath.transportRetry
        c2Servers) = 1 := by
  refine ⟨by with_unfolding_all decide, by with_unfolding_all decide,
    by with_unfolding_all decide, by with_unfolding_all decide,
    by with_unfolding_all decide, by with_unfolding_all decide⟩

/-! ## Claim C4: the adaptive controller
(`selectOptimalAlgorithm`, server_lifecycle.go:443-503)

The evaluation gate is `time.Since(lastSwitch) > evaluationWindow`:
the time of the last *switch*, not of the last evaluation.  `lastSwitch`
is written only when an actual switch happens. -/

/-- `infrastructure.GlobalMetrics` (the fields the scoring reads). -/
structure GlobalMetrics where
  totalRequests : Int
  successfulReqs : Int
  failedReqs : Int
  avgResponseTime : Int
  errorRate : ℚ
  throughputRPS : ℚ
deriving Repr, DecidableEq

/-- `infrastructure.AdaptiveController` (mutable fields plus the two
configuration constants set in `NewEnterpriseBalancer`). -/
structure AdaptiveController where
  lastSwitch : Int
  scores : List (String × ℚ)
  switchThreshold : ℚ
  evaluationWindow : Int
deriving Repr, DecidableEq

/-- The controller as initialised in `NewEnterpriseBalancer`
(server_lifecycle.go:314-319): threshold 0.15, window 30 s, zero last
switch, empty score map. -/
def initAC : AdaptiveController :=
  { lastSwitch := 0, scores := [], switchThreshold := 3/20,
    evaluationWindow := 30 * nsPerSec }

/-- Reading the algorithm-scores map (Go map read; missing keys read 0). -/
def scoreOf (scores : List (String × ℚ)) (name : String) : ℚ :=
  ((scores.find? fun p => p.1 == name).map Prod.snd).getD 0

/-- Writing the algorithm-scores map. -/
def setScore (scores : List (String × ℚ)) (name : String) (v : ℚ) :
    List (String × ℚ) :=
  if scores.any fun p => p.1 == name then
    scores.map fun p => if p.1 == name then (p.1, v) else p
  else scores ++ [(name, v)]

/-- `calculateLoadBalanceScore`: 1 for fewer than two servers or zero mean
load, else `max(0, 1 − cv)` where `cv` is the coefficient of variation of
the per-server request counts.  `math.Sqrt` has no rational counterpart,
so the square root is a parameter; every concrete statement below uses a
roster where this branch is not taken. -/
def calculateLoadBalanceScore (sqrtQ : ℚ → ℚ) (loads : List ℚ) : ℚ :=
  if loads.length < 2 then 1
  else
    let mean := loads.sum / (loads.length : ℚ)
    if mean = 0 then 1
    else
      let variance :=
        (loads.map fun l => (l - mean) * (l - mean)).sum /
          (loads.length : ℚ)
      qmax 0 (1 - sqrtQ variance / mean)

/-- `calculateAlgorithmScore`: the weighted sum of the error-rate,
response-time, throughput and balance scores (the algorithm name is taken
and ignored, as in the source). -/
def calculateAlgorithmScore (sqrtQ : ℚ → ℚ) (gm : GlobalMetrics)
    (loads : List ℚ) (algorithmName : String) : ℚ :=
  let errorRateScore := (1 - gm.errorRate) * (3/10)
  let responseTimeScore :=
    if 0 < gm.avgResponseTime then
      qmax 0 (1 - (gm.avgResponseTime : ℚ) / (nsPerSec : ℚ)) * (3/10)
    else 0
  let throughputScore := qmin 1 (gm.throughputRPS / 1000) * (1/5)
  let balanceScore := calculateLoadBalanceScore sqrtQ loads * (1/5)
  errorRateScore + responseTimeScore + throughputScore + balanceScore

/-- `evaluateAlgorithms`: score every algorithm, store the scores, and
return the best-scoring name (initial best = the current algorithm with
score 0, replaced only on strictly greater score). -/
def evaluateAlgorithms (sqrtQ : ℚ → ℚ) (gm : GlobalMetrics)
    (loads : List ℚ) (current : String) (algs : List String)
    (scores : List (String × ℚ)) : String × List (String × ℚ) :=
  let r := algs.foldl
    (fun (acc : String × ℚ × List (String × ℚ)) name =>
      let score := calculateAlgorithmScore sqrtQ gm loads name
      let scores' := setScore acc.2.2 name score
      if acc.2.1 < score then (name, score, scores')
      else (acc.1, acc.2.1, scores'))
    (current, 0, scores)
  (r.1, r.2.2)

/-- `selectOptimalAlgorithm`: when more than the evaluation window has
passed since the last switch, re-evaluate all algorithms; switch (and
record the switch time) only when the best score beats the current one by
more than the threshold.  Returns the new current algorithm, the updated
controller, and whether an evaluation took place. -/
def selectOptimalAlgorithm (sqrtQ : ℚ → ℚ) (now : Int)
    (gm : GlobalMetrics) (loads : List ℚ) (algs : List String)
    (current : String) (ac : AdaptiveController) :
    String × AdaptiveController × Bool :=
  if ac.evaluationWindow < now - ac.lastSwitch then
    let ev := evaluateAlgorithms sqrtQ gm loads current algs ac.scores
    let best := ev.1
    let ac' := { ac with scores := ev.2 }
    if best ≠ current then
      if ac.switchThreshold < scoreOf ev.2 best - scoreOf ev.2 current then
        (best, { ac' with lastSwitch := now }, true)
      else (current, ac', true)
    else (current, ac', true)
  else (current, ac, false)

/-- C4 amended: algorithms are re-scored on every selection occurring
more than 30 s after the last *switch* — possibly many times per
evaluation window — rather than at most once per window; the active
algorithm changes only when the evaluated top candidate's score exceeds
the current algorithm's score by more than the switch threshold, and the
last-switch time is recorded exactly at that moment; within the window of
the last switch nothing is evaluated and the algorithm stays fixed. -/
theorem C4_adaptive_controller_amended (sqrtQ : ℚ → ℚ) (now : Int)
    (gm : GlobalMetrics) (loads : List ℚ) (algs : List String)
    (current : String) (ac : AdaptiveController) :
    ((selectOptimalAlgorithm sqrtQ now gm loads algs current ac).2.2 =
        true ↔ ac.evaluationWindow < now - ac.lastSwitch) ∧
    (¬ ac.evaluationWindow < now - ac.lastSwitch →
      selectOptimalAlgorithm sqrtQ now gm loads algs current ac =
        (current, ac, false)) ∧
    ((selectOptimalAlgorithm sqrtQ now gm loads algs current ac).1 ≠
        current →
      (selectOptimalAlgorithm sqrtQ now gm loads algs current ac).1 =
        (evaluateAlgorithms sqrtQ gm loads current algs ac.scores).1 ∧
      ac.switchThreshold <
        scoreOf (evaluateAlgorithms sqrtQ gm loads current algs
            ac.scores).2
          (evaluateAlgorithms sqrtQ gm loads current algs ac.scores).1 -
        scoreOf (evaluateAlgorithms sqrtQ gm loads current algs
            ac.scores).2 current ∧
      (selectOptimalAlgorithm sqrtQ now gm loads algs current
          ac).2.1.lastSwitch = now) ∧
    ((selectOptimalAlgorithm sqrtQ now gm loads algs current ac).1 =
        current →
      (selectOptimalAlgorithm sqrtQ now gm loads algs current
          ac).2.1.lastSwitch = ac.lastSwitch) := by
  unfold selectOptimalAlgorithm
  by_cases hw : ac.evaluationWindow < now - ac.lastSwitch
  · rw [if_pos hw]
    dsimp only
    by_cases hb : (evaluateAlgorithms sqrtQ gm loads current algs
        ac.scores).1 ≠ current
    · rw [if_pos hb]
      by_cases ht : ac.switchThreshold <
          scoreOf (evaluateAlgorithms sqrtQ gm loads current algs
              ac.scores).2
            (evaluateAlgorithms sqrtQ gm loads current algs ac.scores).1 -
          scoreOf (evaluateAlgorithms sqrtQ gm loads current algs
              ac.scores).2 current
      · rw [if_pos ht]
        refine ⟨by simpa using hw, fun hc => absurd hw hc, ?_, ?_⟩
        · intro _
          exact ⟨rfl, ht, rfl⟩
        · intro hc
          exact absurd hc hb
      · rw [if_neg ht]
        refine ⟨by simpa using hw, fun hc => absurd hw hc, ?_, ?_⟩
        · intro hc
          exact absurd rfl hc
        · intro _
          rfl
    · rw [if_neg hb]
      refine ⟨by simpa using hw, fun hc => absurd hw hc, ?_, ?_⟩
      · intro hc
        exact absurd rfl hc
      · intro _
        rfl
  · rw [if_neg hw]
    refine ⟨by simpa using hw, fun _ => rfl, ?_, ?_⟩
    · intro hc
      exact absurd rfl hc
    · intro _
      rfl

/-- All-zero global metrics (the fresh balancer). -/
def gmZero : GlobalMetrics :=
  { totalRequests := 0, successfulReqs := 0, failedReqs := 0,
    avgResponseTime := 0, errorRate := 0, throughputRPS := 0 }

/-- C4 counterexample: with the fresh controller (last switch = time 0)
and tied scores, two selections one second apart — at t = 31 s and
t = 32 s — BOTH trigger a full re-scoring of the algorithms, so scoring
happens twice inside a single 30-second window; the gate only looks at
the time since the last switch. -/
theorem C4_single_evaluation_counterexample :
    (selectOptimalAlgorithm id (31 * nsPerSec) gmZero [0]
        ["adaptive_weighted", "least_connections"] "adaptive_weighted"
        initAC).2.2 = true ∧
    (selectOptimalAlgorithm id (32 * nsPerSec) gmZero [0]
        ["adaptive_weighted", "least_connections"] "adaptive_weighted"
        (selectOptimalAlgorithm id (31 * nsPerSec) gmZero [0]
          ["adaptive_weighted", "least_connections"] "adaptive_weighted"
          initAC).2.1).2.2 = true ∧
    32 * nsPerSec - 31 * nsPerSec < 30 * nsPerSec := by
  refine ⟨by with_unfolding_all decide, by with_unfolding_all decide,
    by decide⟩

theorem C4_adaptive_controller_amended_witness :
    selectOptimalAlgorithm id (5 * nsPerSec) gmZero [0]
        ["adaptive_weighted", "least_connections"] "adaptive_weighted"
        initAC =
      ("adaptive_weighted", initAC, false) :=
  (C4_adaptive_controller_amended id (5 * nsPerSec) gmZero [0]
      ["adaptive_weighted", "least_connections"] "adaptive_weighted"
      initAC).2.1 (by decide)

/-! ## Claim C5: the selection retry loop
(`selectServerWithRetry`, proxy_service.go:65-88) -/

/-- The `for i := 0; i < retries; i++` loop: `results k` is the outcome of
the balancer's k-th `SelectServer` call; returns the selected server (if
any) and the number of balancer calls made. -/
def retryLoop (results : Nat → Option Server) :
    Nat → Nat → Option Server × Nat
  | 0, used => (none, used)
  | Nat.succ k, used =>
      match results used with
      | some s => (some s, used + 1)
      | none => retryLoop results k (used + 1)

/-- `selectServerWithRetry`: a sticky-session hit short-circuits the
balancer entirely; otherwise `retries` defaults to 3 when the configured
value is 0 and the loop makes at most `retries` balancer calls. -/
def selectServerWithRetry (stickyEnabled : Bool)
    (stickyResult : Option Server) (retriesCfg : Int)
    (results : Nat → Option Server) : Option Server × Nat :=
  if stickyEnabled ∧ stickyResult.isSome then (stickyResult, 0)
  else
    let retries := if retriesCfg = 0 then 3 else retriesCfg
    retryLoop results retries.toNat 0

theorem retryLoop_none_iff (results : Nat → Option Server) (n used : Nat) :
    (retryLoop results n used).1 = none ↔
      ∀ i, i < n → results (used + i) = none := by
  induction n generalizing used with
  | zero => simp [retryLoop]
  | succ k ih =>
    unfold retryLoop
    rcases hr : results used with _ | s
    · dsimp only
      rw [ih (used + 1)]
      constructor
      · intro hall i hi
        cases i with
        | zero => simpa using hr
        | succ i =>
          have := hall i (by omega)
          simpa [Nat.add_assoc, Nat.add_comm 1 i] using this
      · intro hall i hi
        have := hall (i + 1) (by omega)
        simpa [Nat.add_assoc, Nat.add_comm 1 i] using this
    · dsimp only
      constructor
      · intro hc
        simp at hc
      · intro hall
        have := hall 0 (by omega)
        simp [hr] at this

theorem retryLoop_calls_le (results : Nat → Option Server) (n used : Nat) :
    (retryLoop results n used).2 ≤ used + n := by
  induction n generalizing used with
  | zero => simp [retryLoop]
  | succ k ih =>
    unfold retryLoop
    rcases hr : results used with _ | s
    · dsimp only
      have := ih (used + 1)
      omega
    · dsimp only
      omega

theorem retryLoop_all_none_calls (results : Nat → Option Server)
    (n used : Nat) (h : ∀ i, i < n → results (used + i) = none) :
    (retryLoop results n used).2 = used + n := by
  induction n generalizing used with
  | zero => simp [retryLoop]
  | succ k ih =>
    unfold retryLoop
    have h0 : results used = none := by simpa using h 0 (by omega)
    rw [h0]
    dsimp only
    rw [ih (used + 1) (fun i hi => by
      have := h (i + 1) (by omega)
      simpa [Nat.add_assoc, Nat.add_comm 1 i] using this)]
    omega

/-- C5 amended: with no sticky-session hit the forwarder calls the
Selection Engine up to `retries` times — NOT `retries+1` — where
`retries` is the configured count, defaulting to 3 when the configured
value is zero; it reports no server exactly when all those attempts
return none, in which case exactly `retries` calls were made; a
sticky-session hit bypasses the balancer entirely. -/
theorem C5_retry_loop_amended (retriesCfg : Int)
    (results : Nat → Option Server) :
    ((selectServerWithRetry false none retriesCfg results).1 = none ↔
      ∀ i, i < (if retriesCfg = 0 then (3:Int) else retriesCfg).toNat →
        results i = none) ∧
    (selectServerWithRetry false none retriesCfg results).2 ≤
      (if retriesCfg = 0 then (3:Int) else retriesCfg).toNat ∧
    ((∀ i, i < (if retriesCfg = 0 then (3:Int) else retriesCfg).toNat →
        results i = none) →
      (selectServerWithRetry false none retriesCfg results).2 =
        (if retriesCfg = 0 then (3:Int) else retriesCfg).toNat) ∧
    (∀ s : Server, selectServerWithRetry true (some s) retriesCfg results =
      (some s, 0)) := by
  refine ⟨?_, ?_, ?_, ?_⟩
  · unfold selectServerWithRetry
    rw [if_neg (by simp)]
    dsimp only
    rw [retryLoop_none_iff]
    simp
  · unfold selectServerWithRetry
    rw [if_neg (by simp)]
    dsimp only
    have := retryLoop_calls_le results
      (if retriesCfg = 0 then (3:Int) else retriesCfg).toNat 0
    simpa using this
  · intro hall
    unfold selectServerWithRetry
    rw [if_neg (by simp)]
    dsimp only
    have := retryLoop_all_none_calls results
      (if retriesCfg = 0 then (3:Int) else retriesCfg).toNat 0
      (fun i hi => by simpa using hall i hi)
    simpa using this
  · intro s
    unfold selectServerWithRetry
    rw [if_pos (by simp)]

/-- C5 counterexample: with the default configuration (`Retries = 0`,
defaulted to 3) and a balancer that always returns none, the forwarder
makes exactly 3 balancer calls — not the claimed `retries+1 = 4`. -/
theorem C5_attempt_count_counterexample :
    (selectServerWithRetry false none 0 (fun _ => none)).2 = 3 ∧
    (selectServerWithRetry false none 0 (fun _ => none)).2 ≠ 4 := by
  refine ⟨by decide, by decide⟩

theorem C5_retry_loop_amended_witness :
    (selectServerWithRetry false none 0 (fun _ => none)).2 =
      (if (0:Int) = 0 then (3:Int) else 0).toNat :=
  (C5_retry_loop_amended 0 (fun _ => none)).2.2.1
    (fun i _ => rfl)

/-! ## Claim C6: the consistent-hash ring (`algorithms.go:176-388`)

`ConsistentHashRing.hash` is the first four bytes of the MD5 digest read
big-endian; the virtual-node keys are produced by
`fmt.Sprintf("%s:%d", url, i)`.  MD5 (RFC 1321) is embedded below over
byte lists and validated against the RFC test vectors. -/

def mask32 : Nat := 0xFFFFFFFF

def rotl32 (x s : Nat) : Nat := ((x <<< s) ||| (x >>> (32 - s))) &&& mask32

def utf8Bytes (c : Nat) : List Nat :=
  if c < 0x80 then [c]
  else if c < 0x800 then
    [0xC0 ||| (c >>> 6), 0x80 ||| (c &&& 0x3F)]
  else if c < 0x10000 then
    [0xE0 ||| (c >>> 12), 0x80 ||| ((c >>> 6) &&& 0x3F),
     0x80 ||| (c &&& 0x3F)]
  else
    [0xF0 ||| (c >>> 18), 0x80 ||| ((c >>> 12) &&& 0x3F),
     0x80 ||| ((c >>> 6) &&& 0x3F), 0x80 ||| (c &&& 0x3F)]

def strBytes (s : String) : List Nat :=
  s.data.flatMap fun ch => utf8Bytes ch.toNat

def md5S : List Nat :=
  [7,12,17,22,7,12,17,22,7,12,17,22,7,12,17,22,
   5,9,14,20,5,9,14,20,5,9,14,20,5,9,14,20,
   4,11,16,23,4,11,16,23,4,11,16,23,4,11,16,23,
   6,10,15,21,6,10,15,21,6,10,15,21,6,10,15,21]

def md5K : List Nat :=
  [0xd76aa478, 0xe8c7b756, 0x242070db, 0xc1bdceee,
   0xf57c0faf, 0x4787c62a, 0xa8304613, 0xfd469501,
   0x698098d8, 0x8b44f7af, 0xffff5bb1, 0x895cd7be,
   0x6b901122, 0xfd987193, 0xa679438e, 0x49b40821,
   0xf61e2562, 0xc040b340, 0x265e5a51, 0xe9b6c7aa,
   0xd62f105d, 0x02441453, 0xd8a1e681, 0xe7d3fbc8,
   0x21e1cde6, 0xc33707d6, 0xf4d50d87, 0x455a14ed,
   0xa9e3e905, 0xfcefa3f8, 0x676f02d9, 0x8d2a4c8a,
   0xfffa3942, 0x8771f681, 0x6d9d6122, 0xfde5380c,
   0xa4beea44, 0x4bdecfa9, 0xf6bb4b60, 0xbebfbc70,
   0x289b7ec6, 0xeaa127fa, 0xd4ef3085, 0x04881d05,
   0xd9d4d039, 0xe6db99e5, 0x1fa27cf8, 0xc4ac5665,
   0xf4292244, 0x432aff97, 0xab9423a7, 0xfc93a039,
   0x655b59c3, 0x8f0ccc92, 0xffeff47d, 0x85845dd1,
   0x6fa87e4f, 0xfe2ce6e0, 0xa3014314, 0x4e0811a1,
   0xf7537e82, 0xbd3af235, 0x2ad7d2bb, 0xeb86d391]

def leBytes : Nat → Nat → List Nat
  | 0, _ => []
  | Nat.succ k, v => (v &&& 0xFF) :: leBytes k (v >>> 8)

def md5Pad (msg : List Nat) : List Nat :=
  let len := msg.length
  let padZeros := (56 + 64 - ((len + 1) % 64)) % 64
  msg ++ 0x80 :: (List.replicate padZeros 0 ++ leBytes 8 ((8 * len) % 2^64))

def toWordsLE : List Nat → List Nat
  | b0 :: b1 :: b2 :: b3 :: rest =>
      (b0 ||| (b1 <<< 8) ||| (b2 <<< 16) ||| (b3 <<< 24)) :: toWordsLE rest
  | _ => []

def chunks16 : List Nat → List (List Nat)
  | w0 :: w1 :: w2 :: w3 :: w4 :: w5 :: w6 :: w7 :: w8 :: w9 :: w10 ::
      w11 :: w12 :: w13 :: w14 :: w15 :: rest =>
      [w0,w1,w2,w3,w4,w5,w6,w7,w8,w9,w10,w11,w12,w13,w14,w15] ::
        chunks16 rest
  | _ => []

def md5Step (m : List Nat) (st : Nat × Nat × Nat × Nat) (i : Nat) :
    Nat × Nat × Nat × Nat :=
  let a := st.1
  let b := st.2.1
  let c := st.2.2.1
  let d := st.2.2.2
  let fg : Nat × Nat :=
    if i < 16 then ((b &&& c) ||| ((mask32 ^^^ b) &&& d), i)
    else if i < 32 then ((d &&& b) ||| ((mask32 ^^^ d) &&& c), (5*i + 1) % 16)
    else if i < 48 then (b ^^^ c ^^^ d, (3*i + 5) % 16)
    else (c ^^^ (b ||| (mask32 ^^^ d)), (7*i) % 16)
  let tmp := (fg.1 + a + md5K.getD i 0 + m.getD fg.2 0) &&& mask32
  (d, (b + rotl32 tmp (md5S.getD i 0)) &&& mask32, b, c)

def md5Block (st : Nat × Nat × Nat × Nat) (m : List Nat) :
    Nat × Nat × Nat × Nat :=
  let r := (List.range 64).foldl (md5Step m) st
  ((st.1 + r.1) &&& mask32, (st.2.1 + r.2.1) &&& mask32,
   (st.2.2.1 + r.2.2.1) &&& mask32, (st.2.2.2 + r.2.2.2) &&& mask32)

def md5 (msg : List Nat) : List Nat :=
  let st := (chunks16 (toWordsLE (md5Pad msg))).foldl md5Block
    (0x67452301, 0xefcdab89, 0x98badcfe, 0x10325476)
  leBytes 4 st.1 ++ leBytes 4 st.2.1 ++ leBytes 4 st.2.2.1 ++
    leBytes 4 st.2.2.2

/-- RFC 1321 test vector: MD5("") = d41d8cd98f00b204e9800998ecf8427e. -/
theorem md5_rfc_empty :
    md5 [] = [0xd4, 0x1d, 0x8c, 0xd9, 0x8f, 0x00, 0xb2, 0x04,
              0xe9, 0x80, 0x09, 0x98, 0xec, 0xf8, 0x42, 0x7e] := by
  decide

/-- RFC 1321 test vector: MD5("abc") = 900150983cd24fb0d6963f7d28e17f72. -/
theorem md5_rfc_abc :
    md5 (strBytes "abc") =
      [0x90, 0x01, 0x50, 0x98, 0x3c, 0xd2, 0x4f, 0xb0,
       0xd6, 0x96, 0x3f, 0x7d, 0x28, 0xe1, 0x7f, 0x72] := by
  decide

/-- `ConsistentHashRing.hash`: first four digest bytes as a big-endian
32-bit value. -/
def chrHash (key : String) : Nat :=
  let h := md5 (strBytes key)
  (h.getD 0 0) <<< 24 ||| (h.getD 1 0) <<< 16 |||
    (h.getD 2 0) <<< 8 ||| h.getD 3 0

/-- The virtual-node key `fmt.Sprintf("%s:%d", url, i)`. -/
def virtualKey (url : String) (i : Nat) : String :=
  url ++ ":" ++ toString i

/-- Modelled from the claim's wording (C6): a ring keyed by the MD5 of
the string "url#index". -/
def claimedVirtualKeyC6 (url : String) (i : Nat) : String :=
  url ++ "#" ++ toString i

/-- The `(hash, url)` pairs written into the ring by
`ConsistentHashRing.UpdateServers`. -/
def ringEntries (urls : List String) (virtualNodes : Nat) :
    List (Nat × String) :=
  urls.flatMap fun u =>
    (List.range virtualNodes).map fun i => (chrHash (virtualKey u i), u)

/-- Insertion into a sorted `Nat` list. -/
def insertSortedNat (v : Nat) : List Nat → List Nat
  | [] => [v]
  | x :: xs => if v ≤ x then v :: x :: xs else x :: insertSortedNat v xs

/-- Ascending sort of the ring hashes, modelling Go's `sort.Slice`. -/
def sortNats (l : List Nat) : List Nat := l.foldr insertSortedNat []

/-- `sort.Search(n, f)`: the least index satisfying the predicate
`sortedHashes[i] >= hash` (a linear model of the binary search, which
agrees with it on the sorted hash list). -/
def lowerBoundIdx (l : List Nat) (h : Nat) : Nat :=
  match l with
  | [] => 0
  | x :: xs => if h ≤ x then 0 else lowerBoundIdx xs h + 1

/-- `chr.ring[hash]` — a Go map write-over-write read, so the last write
wins on (astronomically unlikely) hash collisions. -/
def ringLookup (entries : List (Nat × String)) (h : Nat) : Option String :=
  (entries.reverse.find? fun e => e.1 == h).map Prod.snd

/-- The node hash `ConsistentHashRing.GetServer` settles on: the first
sorted hash at or after the key's hash, wrapping to index 0. -/
def chrSelectedNodeHash (urls : List String) (key : String) : Nat :=
  let sorted := sortNats ((ringEntries urls 150).map Prod.fst)
  let idx := lowerBoundIdx sorted (chrHash key)
  sorted.getD (if idx = sorted.length then 0 else idx) 0

/-- `ConsistentHashRing.GetServer`. -/
def chrGetServer (urls : List String) (key : String) : Option String :=
  let sorted := sortNats ((ringEntries urls 150).map Prod.fst)
  if sorted.isEmpty then none
  else ringLookup (ringEntries urls 150) (chrSelectedNodeHash urls key)

/-- `LeastConnections` score (algorithms.go:110-123):
`active/effectiveWeight + 0.3·(p95/100ms) + 10·errorRate`. -/
def lcScore (sv : ServerState) : ℚ :=
  let score := (sv.connectionPool.activeConns : ℚ) / sv.effectiveWeight
  let score :=
    if 0 < sv.metrics.p95ResponseTime then
      score + ((sv.metrics.p95ResponseTime : ℚ) /
        ((100 * nsPerMs : Int) : ℚ)) * (3/10)
    else score
  score + sv.metrics.errorRate * 10

/-- Index of the first minimum, mirroring the Go scan that replaces the
candidate only on strictly smaller score. -/
def firstMinIdx : List ℚ → Nat
  | [] => 0
  | [_] => 0
  | x :: y :: xs =>
      let j := firstMinIdx (y :: xs)
      if (y :: xs).getD j 0 < x then j + 1 else 0

/-- `LeastConnections.SelectServer`. -/
def lcSelect (servers : List ServerState) (clientIP : String) :
    Option ServerState :=
  if servers.isEmpty then none
  else servers.get? (firstMinIdx (servers.map lcScore))

/-- `ConsistentHash.SelectServer`: look up the ring owner of the client
identity; return it when it is neither `Unhealthy` nor circuit-`Open`,
otherwise (and when the owner is not among the candidates) fall back to
`LeastConnections`. -/
def consistentHashSelect (servers : List ServerState)
    (clientIP : String) : Option ServerState :=
  if servers.isEmpty then none
  else
    match chrGetServer (servers.map (·.server.url)) clientIP with
    | some purl =>
        match servers.find? (fun sv => sv.server.url == purl) with
        | some sv =>
            if sv.healthState ≠ HealthState.unhealthy ∧
                sv.circuitBreaker.state ≠ CircuitState.open then some sv
            else lcSelect servers clientIP
        | none => lcSelect servers clientIP
    | none => lcSelect servers clientIP

/-! ### Sortedness machinery for the ring walk -/

theorem mem_insertSortedNat (v x : Nat) (l : List Nat) :
    x ∈ insertSortedNat v l ↔ x = v ∨ x ∈ l := by
  induction l with
  | nil => simp [insertSortedNat]
  | cons y ys ih =>
    unfold insertSortedNat
    split
    · simp
    · simp [ih]
      tauto

theorem sorted_insertSortedNat (v : Nat) (l : List Nat)
    (h : l.Sorted (· ≤ ·)) : (insertSortedNat v l).Sorted (· ≤ ·) := by
  induction l with
  | nil => simp [insertSortedNat]
  | cons y ys ih =>
    unfold insertSortedNat
    split
    · rename_i hvy
      rw [List.sorted_cons]
      refine ⟨?_, h⟩
      intro b hb
      rcases List.mem_cons.mp hb with rfl | hb
      · exact hvy
      · have := (List.sorted_cons.mp h).1 b hb
        omega
    · rename_i hvy
      rw [List.sorted_cons]
      obtain ⟨hy, hys⟩ := List.sorted_cons.mp h
      refine ⟨?_, ih hys⟩
      intro b hb
      rcases (mem_insertSortedNat v b ys).mp hb with rfl | hb
      · omega
      · exact hy b hb

theorem sortNats_sorted (l : List Nat) : (sortNats l).Sorted (· ≤ ·) := by
  induction l with
  | nil => simp [sortNats]
  | cons x xs ih => exact sorted_insertSortedNat x (sortNats xs) ih

theorem mem_sortNats (x : Nat) (l : List Nat) :
    x ∈ sortNats l ↔ x ∈ l := by
  induction l with
  | nil => simp [sortNats]
  | cons y ys ih =>
    show x ∈ insertSortedNat y (sortNats ys) ↔ _
    rw [mem_insertSortedNat, ih]
    simp

theorem sortNats_length (l : List Nat) :
    (sortNats l).length = l.length := by
  have hstep : ∀ (v : Nat) (m : List Nat),
      (insertSortedNat v m).length = m.length + 1 := by
    intro v m
    induction m with
    | nil => rfl
    | cons y ys ih =>
      unfold insertSortedNat
      split
      · simp
      · simp [ih]
  induction l with
  | nil => rfl
  | cons x xs ih =>
    show (insertSortedNat x (sortNats xs)).length = _
    rw [hstep, ih]
    rfl

theorem lowerBoundIdx_le_length (l : List Nat) (h : Nat) :
    lowerBoundIdx l h ≤ l.length := by
  induction l with
  | nil => simp [lowerBoundIdx]
  | cons x xs ih =>
    unfold lowerBoundIdx
    split
    · omega
    · simpa using ih

theorem lowerBoundIdx_lt_iff (l : List Nat) (h : Nat) :
    lowerBoundIdx l h < l.length ↔ ∃ x ∈ l, h ≤ x := by
  induction l with
  | nil => simp [lowerBoundIdx]
  | cons y ys ih =>
    unfold lowerBoundIdx
    split
    · rename_i hy
      simp only [List.length_cons]
      constructor
      · intro _
        exact ⟨y, by simp, hy⟩
      · intro _
        omega
    · rename_i hy
      simp only [List.length_cons]
      constructor
      · intro hlt
        obtain ⟨x, hx, hhx⟩ := ih.mp (by omega)
        exact ⟨x, by simp [hx], hhx⟩
      · intro hex
        obtain ⟨x, hx, hhx⟩ := hex
        rcases List.mem_cons.mp hx with rfl | hx
        · exact absurd hhx hy
        · have := ih.mpr ⟨x, hx, hhx⟩
          omega

theorem lowerBoundIdx_getD (l : List Nat) (h : Nat)
    (hlt : lowerBoundIdx l h < l.length) :
    h ≤ l.getD (lowerBoundIdx l h) 0 := by
  induction l with
  | nil => simp at hlt
  | cons y ys ih =>
    unfold lowerBoundIdx
    split
    · simpa using by assumption
    · rename_i hy
      have hlt' : lowerBoundIdx ys h < ys.length := by
        unfold lowerBoundIdx at hlt
        rw [if_neg hy] at hlt
        simpa using hlt
      simpa using ih hlt'

theorem lowerBoundIdx_min (l : List Nat) (h : Nat)
    (hs : l.Sorted (· ≤ ·)) :
    ∀ x ∈ l, h ≤ x → l.getD (lowerBoundIdx l h) 0 ≤ x := by
  induction l with
  | nil => simp
  | cons y ys ih =>
    intro x hx hhx
    unfold lowerBoundIdx
    obtain ⟨hy, hys⟩ := List.sorted_cons.mp hs
    split
    · rename_i hhy
      rcases List.mem_cons.mp hx with rfl | hx
      · simp
      · simpa using hy x hx
    · rename_i hhy
      rcases List.mem_cons.mp hx with rfl | hx
      · exact absurd hhx hhy
      · simpa using ih hys x hx hhx

theorem sorted_getD_zero_min (l : List Nat) (hs : l.Sorted (· ≤ ·)) :
    ∀ x ∈ l, l.getD 0 0 ≤ x := by
  cases l with
  | nil => simp
  | cons y ys =>
    intro x hx
    obtain ⟨hy, _⟩ := List.sorted_cons.mp hs
    rcases List.mem_cons.mp hx with rfl | hx
    · simp
    · simpa using hy x hx

theorem chrSelectedNodeHash_eq (urls : List String) (key : String) :
    chrSelectedNodeHash urls key =
      (sortNats ((ringEntries urls 150).map Prod.fst)).getD
        (if lowerBoundIdx (sortNats ((ringEntries urls 150).map Prod.fst))
              (chrHash key) =
            (sortNats ((ringEntries urls 150).map Prod.fst)).length then 0
         else lowerBoundIdx
            (sortNats ((ringEntries urls 150).map Prod.fst))
            (chrHash key)) 0 := rfl

theorem ringEntries_length (urls : List String) (n : Nat) :
    (ringEntries urls n).length = n * urls.length := by
  induction urls with
  | nil => rfl
  | cons v vs ih =>
    simp only [ringEntries, List.flatMap_cons, List.length_append,
      List.length_map, List.length_range, List.length_cons]
    simp only [ringEntries] at ih
    rw [ih]
    ring

theorem getD_mem_nat (l : List Nat) (i : Nat) (h : i < l.length) :
    l.getD i 0 ∈ l := by
  induction l generalizing i with
  | nil => simp at h
  | cons y ys ih =>
    cases i with
    | zero => simp
    | succ i =>
      have := ih i (by simpa using h)
      simp only [List.getD_cons_succ, List.mem_cons]
      exact Or.inr this

/-- C6 counterexample: the ring keys are the MD5 of `"url:index"` (colon
separator from `fmt.Sprintf("%s:%d", ...)`), not of `"url#index"` as the
claim states; for server URL "a" and virtual index 0 the two keys hash
differently. -/
theorem C6_virtual_key_counterexample :
    virtualKey "a" 0 = "a:0" ∧
    claimedVirtualKeyC6 "a" 0 = "a#0" ∧
    chrHash (virtualKey "a" 0) ≠ chrHash (claimedVirtualKeyC6 "a" 0) := by
  refine ⟨by decide, by decide, by decide⟩

/-- C6 amended: the ring holds 150 virtual nodes per server, keyed by the
first four bytes (big-endian) of the MD5 of `"url:index"`; the selected
node is the least ring hash at or after the client hash, wrapping to the
least hash overall; and when the ring owner is found among the
candidates, it is returned iff it is neither `Unhealthy` nor
circuit-`Open`, with `LeastConnections` as the fallback. -/
theorem C6_consistent_hash_amended (urls : List String) (u key : String)
    (i : Nat) (servers : List ServerState) (ip : String)
    (hu : u ∈ urls) (hi : i < 150) (hsrv : ¬ servers.isEmpty) :
    (ringEntries urls 150).length = 150 * urls.length ∧
    (chrHash (u ++ ":" ++ toString i), u) ∈ ringEntries urls 150 ∧
    (chrSelectedNodeHash urls key ∈
        sortNats ((ringEntries urls 150).map Prod.fst) ∧
      ((∃ x ∈ sortNats ((ringEntries urls 150).map Prod.fst),
          chrHash key ≤ x) →
        chrHash key ≤ chrSelectedNodeHash urls key ∧
        ∀ x ∈ sortNats ((ringEntries urls 150).map Prod.fst),
          chrHash key ≤ x → chrSelectedNodeHash urls key ≤ x) ∧
      ((¬ ∃ x ∈ sortNats ((ringEntries urls 150).map Prod.fst),
          chrHash key ≤ x) →
        ∀ x ∈ sortNats ((ringEntries urls 150).map Prod.fst),
          chrSelectedNodeHash urls key ≤ x)) ∧
    (∀ purl sv,
      chrGetServer (servers.map (·.server.url)) ip = some purl →
      servers.find? (fun s => s.server.url == purl) = some sv →
      ((sv.healthState ≠ HealthState.unhealthy ∧
          sv.circuitBreaker.state ≠ CircuitState.open) →
        consistentHashSelect servers ip = some sv) ∧
      ((sv.healthState = HealthState.unhealthy ∨
          sv.circuitBreaker.state = CircuitState.open) →
        consistentHashSelect servers ip = lcSelect servers ip)) := by
  have hune : urls ≠ [] := by
    intro hc
    rw [hc] at hu
    simp at hu
  have hentry : (chrHash (u ++ ":" ++ toString i), u) ∈
      ringEntries urls 150 := by
    unfold ringEntries
    rw [List.mem_flatMap]
    exact ⟨u, hu, List.mem_map.mpr ⟨i, List.mem_range.mpr hi, rfl⟩⟩
  have hslen : (sortNats ((ringEntries urls 150).map Prod.fst)).length =
      (ringEntries urls 150).length := by
    rw [sortNats_length, List.length_map]
  have hsne : (sortNats ((ringEntries urls 150).map Prod.fst)) ≠ [] := by
    intro hc
    have hm : chrHash (u ++ ":" ++ toString i) ∈
        sortNats ((ringEntries urls 150).map Prod.fst) :=
      (mem_sortNats _ _).mpr
        (List.mem_map.mpr ⟨_, hentry, rfl⟩)
    rw [hc] at hm
    simp at hm
  set sorted := sortNats ((ringEntries urls 150).map Prod.fst) with hsorted
  have hsortedS : sorted.Sorted (· ≤ ·) := sortNats_sorted _
  have hslen0 : 0 < sorted.length := by
    cases hcase : sorted with
    | nil => exact absurd hcase hsne
    | cons a as => simp [hcase]
  refine ⟨?_, hentry, ⟨?_, ?_, ?_⟩, ?_⟩
  · exact ringEntries_length urls 150
  · rw [chrSelectedNodeHash_eq, ← hsorted]
    by_cases hraw : lowerBoundIdx sorted (chrHash key) = sorted.length
    · rw [if_pos hraw]
      exact getD_mem_nat sorted 0 hslen0
    · rw [if_neg hraw]
      have := lowerBoundIdx_le_length sorted (chrHash key)
      exact getD_mem_nat sorted _ (by omega)
  · intro hex
    have hlt : lowerBoundIdx sorted (chrHash key) < sorted.length :=
      (lowerBoundIdx_lt_iff sorted (chrHash key)).mpr hex
    have hne : ¬ lowerBoundIdx sorted (chrHash key) = sorted.length := by
      omega
    constructor
    · rw [chrSelectedNodeHash_eq, ← hsorted, if_neg hne]
      exact lowerBoundIdx_getD sorted (chrHash key) hlt
    · intro x hx hhx
      rw [chrSelectedNodeHash_eq, ← hsorted, if_neg hne]
      exact lowerBoundIdx_min sorted (chrHash key) hsortedS x hx hhx
  · intro hnex
    have hlt : ¬ lowerBoundIdx sorted (chrHash key) < sorted.length := by
      rw [lowerBoundIdx_lt_iff]
      exact hnex
    have heq : lowerBoundIdx sorted (chrHash key) = sorted.length := by
      have := lowerBoundIdx_le_length sorted (chrHash key)
      omega
    intro x hx
    rw [chrSelectedNodeHash_eq, ← hsorted, if_pos heq]
    exact sorted_getD_zero_min sorted hsortedS x hx
  · intro purl sv hget hfind
    constructor
    · intro hok
      unfold consistentHashSelect
      rw [if_neg hsrv, hget]
      dsimp only
      rw [hfind]
      dsimp only
      rw [if_pos hok]
    · intro hbad
      unfold consistentHashSelect
      rw [if_neg hsrv, hget]
      dsimp only
      rw [hfind]
      dsimp only
      rw [if_neg (by tauto)]

theorem C6_consistent_hash_amended_witness :
    (ringEntries ["a"] 150).length = 150 * ["a"].length ∧
    (chrHash ("a" ++ ":" ++ toString 0), "a") ∈ ringEntries ["a"] 150 :=
  ⟨(C6_consistent_hash_amended ["a"] "a" "client" 0 [c7Server] "client"
      (by decide) (by decide) (by decide)).1,
   (C6_consistent_hash_amended ["a"] "a" "client" 0 [c7Server] "client"
      (by decide) (by decide) (by decide)).2.1⟩

/-! ## Claim C9: the forwarder's error responses
(`ServeHTTP`, proxy_service.go:36-63, and the handlers installed by
`createIntelligentProxy`, proxy_service.go:130-170)

The decision tree of one request is embedded as a pure function of the
configuration, the selection result, the upstream outcome, and — on the
transport-error path — the fresh retry selection.  The response proxied
through the retry is whatever the handler-less retry proxy produces, so it
is a parameter. -/

/-- A rendered HTTP response (status and body). -/
structure HttpResponse where
  status : Nat
  body : String
deriving Repr, DecidableEq

/-- What the upstream leg of the proxied request produced. -/
inductive UpstreamOutcome where
  | response (status : Nat) (body : String)
  | transportError (msg : String)
deriving Repr, DecidableEq

/-- The distinct exits of `ServeHTTP` (each is a distinct write site in
the source). -/
inductive ProxyDecision where
  | noBackends
  | noActiveServers
  | passthrough (status : Nat) (body : String)
  | retried (resp : HttpResponse)
  | serviceUnavailable
deriving Repr, DecidableEq

/-- `p == c` prefix check on character lists. -/
def charsHavePrefix : List Char → List Char → Bool
  | [], _ => true
  | _ :: _, [] => false
  | p :: ps, c :: cs => p == c && charsHavePrefix ps cs

/-- Substring occurrence on character lists. -/
def charsHaveSub (pat : List Char) : List Char → Bool
  | [] => pat.isEmpty
  | c :: cs => charsHavePrefix pat (c :: cs) || charsHaveSub pat cs

/-- Go's `strings.Contains`. -/
def strContains (s pat : String) : Bool := charsHaveSub pat.data s.data

/-- `shouldRetry` (proxy_service.go:241-246): substring match of the
three transient transport errors. -/
def shouldRetry (msg : String) : Bool :=
  strContains msg "connection refused" || strContains msg "timeout" ||
    strContains msg "no route to host"

/-- The decision tree of `ServeHTTP` for one request.  `cfg` is the
configured backend list (`none` for a nil config); `selected` is the
result of `selectServerWithRetry`; `retrySelected` is the fresh
`SelectServer` result inside `ErrorHandler` (the config re-check there is
satisfied because this branch is only reachable with a present,
non-empty config). -/
def serveDecision (cfg : Option (List String)) (selected : Option Server)
    (outcome : UpstreamOutcome) (retrySelected : Option Server)
    (retryResponse : HttpResponse) : ProxyDecision :=
  match cfg with
  | none => ProxyDecision.noBackends
  | some backends =>
    if backends.isEmpty then ProxyDecision.noBackends
    else
      match selected with
      | none => ProxyDecision.noActiveServers
      | some server =>
        match outcome with
        | UpstreamOutcome.response st body =>
            ProxyDecision.passthrough st body
        | UpstreamOutcome.transportError msg =>
            if shouldRetry msg then
              match retrySelected with
              | some rs =>
                  if rs.url ≠ server.url then
                    ProxyDecision.retried retryResponse
                  else ProxyDecision.serviceUnavailable
              | none => ProxyDecision.serviceUnavailable
            else ProxyDecision.serviceUnavailable

/-- The response each exit writes (`http.Error` with status 503 =
`http.StatusServiceUnavailable`, or the streamed-through upstream/retry
response). -/
def renderDecision : ProxyDecision → HttpResponse
  | ProxyDecision.noBackends => ⟨503, "No backends available"⟩
  | ProxyDecision.noActiveServers => ⟨503, "No active servers"⟩
  | ProxyDecision.passthrough st body => ⟨st, body⟩
  | ProxyDecision.retried resp => resp
  | ProxyDecision.serviceUnavailable =>
      ⟨503, "Service Temporarily Unavailable"⟩

/-- C9: `Handle` returns 503 "No backends available" exactly when the
configuration is absent or empty; 503 "No active servers" exactly when a
configuration is present and selection (with retries) yielded no server;
503 "Service Temporarily Unavailable" when a transport error occurs and
the single retry is impossible (the error is non-transient, no
alternative server is available, or the freshly selected server equals
the original); and otherwise the upstream status and body pass
through. -/
theorem C9_error_responses (cfg : Option (List String))
    (selected : Option Server) (outcome : UpstreamOutcome)
    (retrySelected : Option Server) (retryResponse : HttpResponse) :
    (serveDecision cfg selected outcome retrySelected retryResponse =
        ProxyDecision.noBackends ↔ cfg = none ∨ cfg = some []) ∧
    (serveDecision cfg selected outcome retrySelected retryResponse =
        ProxyDecision.noActiveServers ↔
      (∃ l, cfg = some l ∧ l ≠ []) ∧ selected = none) ∧
    (∀ l s st body, cfg = some l → l ≠ [] → selected = some s →
      outcome = UpstreamOutcome.response st body →
      serveDecision cfg selected outcome retrySelected retryResponse =
        ProxyDecision.passthrough st body) ∧
    (∀ l s msg, cfg = some l → l ≠ [] → selected = some s →
      outcome = UpstreamOutcome.transportError msg →
      (shouldRetry msg = false ∨ retrySelected = none ∨
        (∃ rs, retrySelected = some rs ∧ rs.url = s.url)) →
      serveDecision cfg selected outcome retrySelected retryResponse =
        ProxyDecision.serviceUnavailable) ∧
    (∀ l s msg rs, cfg = some l → l ≠ [] → selected = some s →
      outcome = UpstreamOutcome.transportError msg →
      shouldRetry msg = true → retrySelected = some rs → rs.url ≠ s.url →
      serveDecision cfg selected outcome retrySelected retryResponse =
        ProxyDecision.retried retryResponse) ∧
    renderDecision ProxyDecision.noBackends =
      ⟨503, "No backends available"⟩ ∧
    renderDecision ProxyDecision.noActiveServers =
      ⟨503, "No active servers"⟩ ∧
    renderDecision ProxyDecision.serviceUnavailable =
      ⟨503, "Service Temporarily Unavailable"⟩ ∧
    (∀ st body, renderDecision (ProxyDecision.passthrough st body) =
      ⟨st, body⟩) := by
  refine ⟨?_, ?_, ?_, ?_, ?_, rfl, rfl, rfl, fun st body => rfl⟩
  · cases cfg with
    | none => simp [serveDecision]
    | some l =>
      cases hl : l.isEmpty
      · have hlne : l ≠ [] := by
          intro hc
          rw [hc] at hl
          simp at hl
        simp only [serveDecision, hl]
        cases selected with
        | none => simp [hlne]
        | some s =>
          cases outcome with
          | response st body => simp [hlne]
          | transportError msg =>
            by_cases hr : shouldRetry msg
            · cases retrySelected with
              | none => simp [hr, hlne]
              | some rs =>
                by_cases hne : rs.url ≠ s.url
                · simp [hr, hne, hlne]
                · simp [hr, hne, hlne]
            · simp [hr, hlne]
      · have hleq : l = [] := by
          cases l with
          | nil => rfl
          | cons a as => simp at hl
        subst hleq
        simp [serveDecision]
  · cases cfg with
    | none => simp [serveDecision]
    | some l =>
      cases hl : l.isEmpty
      · have hlne : l ≠ [] := by
          intro hc
          rw [hc] at hl
          simp at hl
        simp only [serveDecision, hl]
        cases selected with
        | none => simp [hlne]
        | some s =>
          cases outcome with
          | response st body => simp [hlne]
          | transportError msg =>
            by_cases hr : shouldRetry msg
            · cases retrySelected with
              | none => simp [hr, hlne]
              | some rs =>
                by_cases hne : rs.url ≠ s.url
                · simp [hr, hne, hlne]
                · simp [hr, hne, hlne]
            · simp [hr, hlne]
      · have hleq : l = [] := by
          cases l with
          | nil => rfl
          | cons a as => simp at hl
        subst hleq
        simp [serveDecision]
  · intro l s st body hcfg hlne hsel hout
    subst hcfg
    subst hsel
    subst hout
    simp [serveDecision, List.isEmpty_iff, hlne]
  · intro l s msg hcfg hlne hsel hout hcond
    subst hcfg
    subst hsel
    subst hout
    rcases hcond with hr | hnone | ⟨rs, hrs, hurl⟩
    · simp [serveDecision, List.isEmpty_iff, hlne, hr]
    · subst hnone
      simp only [serveDecision, List.isEmpty_iff]
      rw [if_neg hlne]
      by_cases hr : shouldRetry msg <;> simp [hr]
    · subst hrs
      simp only [serveDecision, List.isEmpty_iff]
      rw [if_neg hlne]
      by_cases hr : shouldRetry msg <;> simp [hr, hurl]
  · intro l s msg rs hcfg hlne hsel hout hr hrs hurl
    subst hcfg
    subst hsel
    subst hout
    subst hrs
    simp [serveDecision, List.isEmpty_iff, hlne, hr, hurl]

theorem C9_error_responses_witness :
    serveDecision (some ["pool"]) (some
        { url := "http://u1", weight := 1, active := true,
          maxConnections := 0, healthy := true })
      (UpstreamOutcome.transportError "dial tcp: connection refused")
      none ⟨200, ""⟩ = ProxyDecision.serviceUnavailable :=
  (C9_error_responses (some ["pool"]) (some
        { url := "http://u1", weight := 1, active := true,
          maxConnections := 0, healthy := true })
      (UpstreamOutcome.transportError "dial tcp: connection refused")
      none ⟨200, ""⟩).2.2.2.1 ["pool"]
    { url := "http://u1", weight := 1, active := true,
      maxConnections := 0, healthy := true }
    "dial tcp: connection refused" rfl (by decide) rfl rfl
    (Or.inr (Or.inl rfl))

end GoProxy
